import Mathlib

/-!
Verification of the wtimer hierarchical timing-wheel scheduler.

A shallow embedding of the core of the `wtimer` Go package (hierarchical
timing wheels, wrap-safe tick arithmetic, timer state machine) together with
proofs and refutations of the specification claims.

Modelling conventions:
* Go unsigned integers become `Nat` with explicit `% 2 ^ w` where wrap-around
  is possible; `x & (2^k - 1)` is written `x % 2 ^ k` and `x >> k` is
  `x / 2 ^ k`.
* Go `time.Duration` and timestamps (int64 nanoseconds) become `Int`;
  Go's `/` and `%` on int64 truncate toward zero, so they are modelled with
  `Int.tdiv` / `Int.tmod`; int64 overflow is modelled by `int64Wrap`.
* Stateful code becomes explicit state passing.  Atomic read-modify-write
  loops (`tInfo` CAS loops) are modelled by their sequential effect on the
  unpacked fields (flags / wheel number / wheel index) of the word.
* Fallible code returns an `Option GoErr` (`none` = Go `nil` error) or, for
  code whose only failure is a `panic`, a dedicated result constructor.
* Logging calls (`DBG`/`WARN`/`ERR`/`BUG`) have no semantic effect and are
  dropped; `PANIC` aborts and is modelled as an explicit `panics` outcome.
-/

set_option maxRecDepth 10000

namespace Wtimer

/-! ## Compile-time constants (`wtimer.go`) -/

def WheelsNo : Nat := 4

def W0Bits : Nat := 14
def W1Bits : Nat := 14
def W2Bits : Nat := 10
def W3Bits : Nat := 10

def W0Entries : Nat := 2 ^ W0Bits
def W1Entries : Nat := 2 ^ W1Bits
def W2Entries : Nat := 2 ^ W2Bits
def W3Entries : Nat := 2 ^ W3Bits

/-- `TicksBits = W0Bits + W1Bits + W2Bits + W3Bits` (48). -/
def TicksBits : Nat := W0Bits + W1Bits + W2Bits + W3Bits

/-- `MaxTicksDiff = 1 << (TicksBits - 1)` (`2^47`). -/
def MaxTicksDiff : Nat := 2 ^ (TicksBits - 1)

/-- `TicksMask = (MaxTicksDiff - 1) | MaxTicksDiff` (`2^48 - 1`). -/
def TicksMask : Nat := 2 ^ TicksBits - 1

/-- Per-wheel sizes (`wheelEntries` array). -/
def wheelEntries : Nat → Nat
  | 0 => W0Entries
  | 1 => W1Entries
  | 2 => W2Entries
  | 3 => W3Entries
  | _ => 0

/-- Sentinel wheel codes (`timer.go`). -/
def wheelNone : Nat := 255

def wheelExp : Nat := 254
def wheelRQ : Nat := 253
def wheelNoIdx : Nat := 65535

/-! ## Timer flags (`timer.go`) -/

def fHead : Nat := 1
def fActive : Nat := 2
def fDelete : Nat := 4
def fRunning : Nat := 8
def fRemoved : Nat := 16
def Ffast : Nat := 32
def FgoR : Nat := 64

def fInternalMask : Nat := fHead ||| fActive ||| fDelete ||| fRunning ||| fRemoved

/-! ## Ticks — wrap-safe logical time (`ticks.go`)

`Ticks` wraps a `uint64` carried modulo `2^TicksBits`.  Go's wrapped uint64
subtraction followed by `& TicksMask` equals subtraction modulo `2^48`
(since `2^48` divides `2^64`), which is how `Sub` is written below.
-/

structure Ticks where
  v : Nat
deriving Repr, DecidableEq

/-- `NewTicks` masks with `TicksMask`, i.e. reduces modulo `2^48`. -/
def NewTicks (u : Nat) : Ticks := ⟨u % 2 ^ TicksBits⟩

/-- `Val` returns `t.v & TicksMask`. -/
def Ticks.Val (t : Ticks) : Nat := t.v % 2 ^ TicksBits

/-- `(t.v - u.v) & TicksMask` with wrapping uint64 subtraction. -/
def Ticks.Sub (t u : Ticks) : Ticks :=
  ⟨(t.v + (2 ^ TicksBits - u.v % 2 ^ TicksBits)) % 2 ^ TicksBits⟩

/-- `(t.v + u.v) & TicksMask` (uint64 overflow is absorbed by the mask). -/
def Ticks.Add (t u : Ticks) : Ticks := ⟨(t.v + u.v) % 2 ^ TicksBits⟩

/-- `(t.v + u) & TicksMask`. -/
def Ticks.AddUint64 (t : Ticks) (u : Nat) : Ticks := ⟨(t.v + u) % 2 ^ TicksBits⟩

/-- `(t.v - u) & TicksMask` with wrapping uint64 subtraction. -/
def Ticks.SubUint64 (t : Ticks) (u : Nat) : Ticks :=
  ⟨(t.v + (2 ^ TicksBits - u % 2 ^ TicksBits)) % 2 ^ TicksBits⟩

/-- `(t.v - u.v) & TicksMask == 0`. -/
def Ticks.EQ (t u : Ticks) : Bool := (t.Sub u).v == 0

def Ticks.NE (t u : Ticks) : Bool := !(t.EQ u)

/-- `(t.v - u.v) & MaxTicksDiff != 0` — the wrapped difference has the sign bit. -/
def Ticks.LT (t u : Ticks) : Bool := (t.Sub u).v &&& MaxTicksDiff != 0

def Ticks.GT (t u : Ticks) : Bool := !(t.LT u) && t.NE u

/-- `(t.v - u.v) & MaxTicksDiff == 0`. -/
def Ticks.GE (t u : Ticks) : Bool := (t.Sub u).v &&& MaxTicksDiff == 0

def Ticks.LE (t u : Ticks) : Bool := t.LT u || t.EQ u

/-! ## Wheel placement (`wtimer.go`) -/

/-- `t & W0Mask`. -/
def wheel0Pos (t : Nat) : Nat := t % 2 ^ W0Bits

/-- `(t >> W0Bits) & W1Mask`. -/
def wheel1Pos (t : Nat) : Nat := t / 2 ^ W0Bits % 2 ^ W1Bits

/-- `(t >> (W0Bits+W1Bits)) & W2Mask`. -/
def wheel2Pos (t : Nat) : Nat := t / 2 ^ (W0Bits + W1Bits) % 2 ^ W2Bits

/-- `(t >> (W0Bits+W1Bits+W2Bits)) & W3Mask`. -/
def wheel3Pos (t : Nat) : Nat := t / 2 ^ (W0Bits + W1Bits + W2Bits) % 2 ^ W3Bits

/-- `getWheelPos` — wheel number and slot for a timer expiring at `exp` when
the current time is `now`.  The Go `uint16` casts on the slot values are
lossless (every slot is below `2^14`) and therefore omitted. -/
def getWheelPos (exp now : Ticks) : Nat × Nat :=
  let delta := (exp.Sub now).Val
  let expire := exp.Val
  if delta < W0Entries then
    if delta = 0 then (wheelExp, wheelNoIdx) else (0, wheel0Pos expire)
  else if delta < W0Entries * W1Entries then (1, wheel1Pos expire)
  else if delta < W0Entries * W1Entries * W2Entries then (2, wheel2Pos expire)
  else (3, wheel3Pos expire)

/-! ## Errors (`errors.go`)

Distinct `errors.New` values are distinct, non-nil Go errors; the sentinel
errors of the package get their own constructors, and ad-hoc
`errors.New(msg)` values are `errNew msg`.
-/

inductive GoErr where
  | inactiveTimer
  | notResetTimer
  | activeTimer
  | runningTimer
  | deletedTimer
  | alreadyRemovedTimer
  | invalidTimer
  | ticksTooHigh
  | durationTooSmall
  | invalidParameters
  | errNew (msg : String)
deriving Repr, DecidableEq

/-! ## Durations and tick conversion (`wtimer.go`)

Durations are int64 nanoseconds.  `int64Wrap` reduces a mathematical integer
to its two's-complement int64 value.
-/

def Microsecond : Int := 1000

def Hour : Int := 3600 * 10 ^ 9

/-- Two's-complement wrap of an integer into `[-2^63, 2^63)`. -/
def int64Wrap (x : Int) : Int := (x + 2 ^ 63) % 2 ^ 64 - 2 ^ 63

/-- `NewTicks(uint64(x))` for an int64 `x`: conversion to uint64 followed by
`& TicksMask` is reduction modulo `2^48`. -/
def ticksOfInt (x : Int) : Ticks := ⟨(x % (2 ^ TicksBits : Int)).toNat⟩

/-- `WTimer.Init(td)`: the tick duration must be between 1 microsecond and
24 hours; on success the wheel lists, the expired list and the run queues are
(re)initialised, which the later machine models as the empty initial state.
Returns the Go error (`none` = `nil`). -/
def wtInit (td : Int) : Option GoErr :=
  if td < Microsecond then some (.errNew "wtimer.Init: tick duration too small")
  else if td > Hour * 24 then some (.errNew "wtimer.Init: tick duration too high")
  else none

/-- `WTimer.Ticks(d)` — duration to (round-down) ticks plus remainder, both
via Go int64 truncated division by the configured tick duration `td`. -/
def wtTicks (td d : Int) : Ticks × Int :=
  if td ≠ 0 then (ticksOfInt (Int.tdiv d td), Int.tmod d td)
  else (NewTicks 0, d)

/-- `WTimer.Duration(t)` — `time.Duration(t.Val()) * tickDuration` with int64
overflow made explicit. -/
def wtDuration (td : Int) (t : Ticks) : Int := int64Wrap ((t.Val : Int) * td)

/-- `WTimer.TicksRoundUp(d)` — round up when the duration is below one tick
or the remainder is at least `50*td/100` (Go integer arithmetic). -/
def wtTicksRoundUp (td d : Int) : Ticks :=
  let p := wtTicks td d
  if p.1.Val = 0 ∨ p.2 ≥ Int.tdiv (int64Wrap (50 * td)) 100 then p.1.AddUint64 1
  else p.1

/-! ## Timer entries (`timer.go`, `tinfo.go`)

`TimerLnk` carries the intrusive links, the packed `info` word and the packed
`rctx` word.  The `tInfo` word `[flags:8 | wheelNo:8 | wheelIdx:16]` is
modelled by its three unpacked fields (`flags`, `infoW`, `infoIdx`); the CAS
loops of `tinfo.go` reduce sequentially to plain updates of those fields.
The intrusive `next`/`prev` pointers are modelled by `linked`: at every
operation boundary the source keeps a timer either linked into exactly one
circular list (the one named by its `info` wheel tag) or with nil links
(every `rm` is immediately followed by `next = nil; prev = nil` on all
code paths), so one Boolean captures them.  `fired` is instrumentation
counting callback invocations. -/

structure TimerLnk where
  linked : Bool
  infoW : Nat
  infoIdx : Nat
  flags : Nat
  rctxW : Nat
  rctxIdx : Nat
  expire : Ticks
  fired : Nat
deriving Repr, DecidableEq

/-- `Detached()` — true when the entry is self-linked or has nil links. -/
def TimerLnk.Detached (tl : TimerLnk) : Bool := !tl.linked

/-- `tInfo.setFlags`: `flags |= mask` on the 8-bit flag byte. -/
def setFlags (f mask : Nat) : Nat := f ||| mask &&& 255

/-- `tInfo.resetFlags`: `flags &= ^mask` on the 8-bit flag byte. -/
def resetFlags (f mask : Nat) : Nat := f &&& (255 ^^^ mask &&& 255)

/-- `tInfo.chgFlags`: clear the bits of `resetMask`, then set those of
`setMask`. -/
def chgFlags (f setMask resetMask : Nat) : Nat :=
  f &&& (255 ^^^ resetMask &&& 255) ||| setMask &&& 255

/-- `WTimer.Reset(tl, flags)` — refuse active-and-not-removed or still-linked
timers, otherwise clear the internal flag bits and set the (sanitised)
user flags. -/
def wtReset (tl : TimerLnk) (flags : Nat) : TimerLnk × Option GoErr :=
  if tl.flags &&& fActive ≠ 0 ∧ tl.flags &&& fRemoved = 0 then
    (tl, some .activeTimer)
  else if tl.linked then (tl, some .invalidTimer)
  else
    let flags2 := flags &&& 255 &&& (255 ^^^ fInternalMask)
    ({ tl with flags := chgFlags tl.flags flags2 fInternalMask }, none)

/-- `WTimer.InitTimer(tl, flags)` — zero the structure, tag the wheel as
`(wheelNone, wheelNoIdx)` and apply `Reset`. -/
def wtInitTimer (flags : Nat) : TimerLnk × Option GoErr :=
  wtReset ⟨false, wheelNone, wheelNoIdx, 0, 0, 0, ⟨0⟩, 0⟩ flags

/-! ## The delete protocol (`wtimer.go`, `del`) -/

def fDelInactiveOk : Nat := 1
def fDelAlreadyOk : Nat := 2
def fDelRaceOk : Nat := 4
def fDelForce : Nat := 8
def fDelTry : Nat := 16

/-- Outcome of `del`: either a `PANIC` (fatal internal-consistency failure)
or the updated timer together with the `(bool, error)` return value. -/
inductive DelRes where
  | panics
  | ret (tl : TimerLnk) (removed : Bool) (err : Option GoErr)
deriving Repr, DecidableEq

/-- `WTimer.del(tl, delF)`, sequential semantics: with no interleaved
thread, every atomic re-read of `info` returns the value read first and the
`wheelRQ` re-check cannot observe a change (the `goto retry` never fires).
A `lst.rm` is modelled by clearing `linked` and tagging the wheel
`(wheelNone, wheelNoIdx)`; the `BUG`/`WARN`/`DBG` log calls are dropped and
`PANIC` aborts. -/
def del (tl : TimerLnk) (delF : Nat) : DelRes :=
  if tl.flags &&& (fActive ||| fDelete) ≠ fActive ∧ tl.flags &&& fActive = 0 then
    .ret tl true (some .inactiveTimer)
  else if tl.flags &&& (fActive ||| fDelete) ≠ fActive ∧
      delF &&& (fDelRaceOk ||| fDelForce) = 0 then
    if delF &&& fDelAlreadyOk ≠ 0 then .ret tl (tl.flags &&& fRemoved ≠ 0) none
    else .ret tl (tl.flags &&& fRemoved ≠ 0) (some .deletedTimer)
  else if tl.infoW = wheelNone then
    if tl.flags &&& fRunning ≠ 0 then
      if delF &&& fDelTry = 0 then
        .ret { tl with flags := setFlags tl.flags fDelete } false none
      else .ret tl false none
    else .ret tl true (some .alreadyRemovedTimer)
  else if tl.flags &&& fRemoved ≠ 0 then .panics
  else if tl.infoW ≠ wheelRQ ∧ tl.Detached then .panics
  else if tl.infoW < WheelsNo then
    .ret { tl with
      linked := false
      infoW := wheelNone
      infoIdx := wheelNoIdx
      flags := setFlags tl.flags fRemoved } true none
  else if tl.infoW = wheelExp then
    if tl.flags &&& fRunning = 0 then
      .ret { tl with
        linked := false
        infoW := wheelNone
        infoIdx := wheelNoIdx
        flags := setFlags tl.flags fRemoved } true none
    else .panics
  else if tl.infoW = wheelRQ then
    if tl.flags &&& fRunning = 0 then
      .ret { tl with
        linked := false
        infoW := wheelNone
        infoIdx := wheelNoIdx
        flags := setFlags tl.flags fRemoved } true none
    else if delF &&& fDelTry = 0 then
      .ret { tl with flags := setFlags tl.flags fDelete } false none
    else .ret tl false none
  else .panics

/-- `WTimer.Del(tl)`. -/
def wtDel (tl : TimerLnk) : DelRes := del tl 0

/-- `WTimer.DelTry(tl)`. -/
def wtDelTry (tl : TimerLnk) : DelRes := del tl fDelTry

/-- States of a timer observable at an operation boundary (used as the
"reachable state" hypothesis of the delete claims): the flag byte is 8 bits
wide; the wheel tag names one of the four wheels, the expired list, a run
queue, or no list; a timer is linked exactly when it is on some list; a
running or removed timer is not on a wheel or the expired list; a timer on
no list is running or removed (`del`'s own BUG comment: `wheelNone &&
!fRunning && !fRemoved` is invalid); and only armed timers run. -/
def TimerInv (tl : TimerLnk) : Prop :=
  tl.flags < 256 ∧
  (tl.infoW < WheelsNo ∨ tl.infoW = wheelExp ∨ tl.infoW = wheelRQ ∨
    tl.infoW = wheelNone) ∧
  (tl.linked = true ↔ tl.infoW ≠ wheelNone) ∧
  (tl.flags &&& fRunning ≠ 0 → tl.infoW = wheelNone ∨ tl.infoW = wheelRQ) ∧
  (tl.flags &&& fRemoved ≠ 0 → tl.infoW = wheelNone) ∧
  (tl.infoW = wheelNone → tl.flags &&& (fRunning ||| fRemoved) ≠ 0) ∧
  (tl.flags &&& fRunning ≠ 0 → tl.flags &&& fActive ≠ 0)

instance (tl : TimerLnk) : Decidable (TimerInv tl) := by
  unfold TimerInv; infer_instance

/-! ## The tick engine (`wtimer_ticker.go`)

Timestamps (`timestamp.TS`) are monotonic wall-clock instants; like Go
durations they are int64 nanoseconds, modelled as `Int` (`Before` is `<`,
`Sub` subtracts, `Add` adds a duration).  `advanceTimeTo(target)` drives the
tick counter to `target` and runs the due timers; its effect on the engine
state is `nowTicks := target`, which is how the last step is modelled here
(the timers it fires live in the wheel machine below, not in this state). -/

structure TickerSt where
  tickDuration : Int
  nowTicks : Ticks
  lastTickT : Int
  badTime : Nat
  refTS : Int
  refTicks : Ticks
deriving Repr, DecidableEq

/-- `WTimer.ticker()` called with the sampled wall clock `now`; returns the
updated engine state and the number of ticks advanced (the Go return value,
modulo `2^48` as produced by `Ticks.Val`).  `badTime` is a uint32 counter. -/
def ticker (st : TickerSt) (now : Int) : TickerSt × Nat :=
  if now < st.lastTickT then
    let bad := (st.badTime + 1) % 2 ^ 32
    if bad > 10 then
      ({ st with
        badTime := bad
        lastTickT := now
        refTS := now
        refTicks := st.nowTicks }, 0)
    else ({ st with badTime := bad }, 0)
  else
    let st1 : TickerSt := { st with badTime := 0 }
    let st2 : TickerSt :=
      if Int.tdiv (now - st1.refTS) st1.tickDuration > (MaxTicksDiff : Int) - 2 then
        { st1 with
          refTS := st1.lastTickT
          refTicks := st1.nowTicks.Sub (wtTicks st1.tickDuration (now - st1.lastTickT)).1 }
      else st1
    let diff := now - st2.lastTickT
    if diff < st2.tickDuration then (st2, 0)
    else
      let p := wtTicks st2.tickDuration diff
      ({ st2 with
        lastTickT := now - p.2
        nowTicks := st2.nowTicks.Add p.1 }, p.1.Val)

/-! ## The wheel machine (`wtimer.go`: `AddExpire`, `advanceTimeTo`,
`redistTimers`, `processExpired`)

A scheduler state holding a single timer.  List membership of the one timer
is captured by its `linked`/`infoW`/`infoIdx` fields (the wheel-tag of every
linked entry always names the owning list).  The callback is one-shot: it
returns `(false, _)`, after which `afterRunUnsafe` must not touch the entry
— the case the lifecycle claims describe.  Callback execution that the
source hands to a run-queue worker or a fresh goroutine is sequentialised:
the dispatch and the worker's drain (`runqListen`) happen in one step. -/

structure WSt where
  nowTicks : Nat
  rQhead : Nat
  tl : TimerLnk
deriving Repr, DecidableEq

/-- `WTimer.Now()` — the atomic uint64 counter reduced by `NewTicks`. -/
def wtNowW (st : WSt) : Ticks := NewTicks st.nowTicks

/-- `redistTimer(lst, tl, now)` at the timer level: an expire in the past is
coerced to `now` (BUG path), the new position comes from `getWheelPos`, a
same-position result leaves the entry in place (BUG path), otherwise the
entry is removed and re-appended (`appendTimer`: a wheel list keeps the slot
index, the expired list tags `(wheelExp, wheelNoIdx)`; an invalid wheel
number marks the entry removed). -/
def redistTimerT (tl : TimerLnk) (now : Ticks) : TimerLnk :=
  let expire := if tl.expire.LT now then now else tl.expire
  let p := getWheelPos expire now
  if p.1 = tl.infoW ∧ p.2 = tl.infoIdx then tl
  else if p.1 < WheelsNo then
    { tl with linked := true, infoW := p.1, infoIdx := p.2 }
  else if p.1 = wheelExp then
    { tl with linked := true, infoW := wheelExp, infoIdx := wheelNoIdx }
  else
    { tl with
      linked := false
      infoW := wheelNone
      infoIdx := wheelNoIdx
      flags := setFlags tl.flags fRemoved }

/-- `redistLst(lst, now)` — walking wheel `w` slot `idx` redistributes the
single timer exactly when that is the list it is linked on. -/
def redistLstT (tl : TimerLnk) (w idx : Nat) (now : Ticks) : TimerLnk :=
  if tl.linked = true ∧ tl.infoW = w ∧ tl.infoIdx = idx then redistTimerT tl now
  else tl

/-- `redistTimers(now)` — cascade the wheel slots crossing a boundary at
`now` (wheel 3, then 2, then 1), then drain wheel-0 slot `idx0` into the
expired list (`mv` retags moved entries `(wheelExp, wheelNoIdx)`). -/
def redistTimersT (tl : TimerLnk) (now : Ticks) : TimerLnk :=
  let t := now.Val
  let idx0 := wheel0Pos t
  let tl1 :=
    if idx0 = 0 then
      let idx1 := wheel1Pos t
      let tla :=
        if idx1 = 0 then
          let idx2 := wheel2Pos t
          let tlb := if idx2 = 0 then redistLstT tl 3 (wheel3Pos t) now else tl
          redistLstT tlb 2 idx2 now
        else tl
      redistLstT tla 1 idx1 now
    else tl
  if tl1.linked = true ∧ tl1.infoW = 0 ∧ tl1.infoIdx = idx0 then
    { tl1 with infoW := wheelExp, infoIdx := wheelNoIdx }
  else tl1

/-- `processExpired(now)` for the one timer with a one-shot callback: unlink
from the expired list (nil links, wheel tag `(wheelNone, wheelNoIdx)`), then
dispatch on the flags — `Ffast` runs inline with `rctx = (wheelExp,
wheelNoIdx)`; `FgoR` spawns a goroutine with `rctx = (wheelNone,
wheelNoIdx)`; otherwise the entry goes to run queue `q = rQhead mod 8` and
the worker sets `rctx = (wheelRQ, q)`, unlinks and runs it.  In each path
`fRunning` is set and the one-shot return makes `afterRunUnsafe` a no-op. -/
def processExpiredT (tl : TimerLnk) (q : Nat) : TimerLnk :=
  if tl.linked = true ∧ tl.infoW = wheelExp then
    let tl1 := { tl with
      linked := false
      infoW := wheelNone
      infoIdx := wheelNoIdx
      flags := setFlags tl.flags fRunning
      fired := tl.fired + 1 }
    if tl.flags &&& Ffast ≠ 0 then
      { tl1 with rctxW := wheelExp, rctxIdx := wheelNoIdx }
    else if tl.flags &&& FgoR ≠ 0 then
      { tl1 with rctxW := wheelNone, rctxIdx := wheelNoIdx }
    else
      { tl1 with rctxW := wheelRQ, rctxIdx := q }
  else tl

/-- One tick of `advanceTimeTo`'s loop: `incTime()` (uint64 increment of the
counter), then `run(Now())` = `redistTimers(now)` + `processExpired(now)`.
`rQhead` is bumped when the expired timer was dispatched to a run queue. -/
def stepTick (st : WSt) : WSt :=
  let n := (st.nowTicks + 1) % 2 ^ 64
  let now := NewTicks n
  let tl1 := redistTimersT st.tl now
  let dispatchRQ := tl1.linked = true ∧ tl1.infoW = wheelExp ∧
    tl1.flags &&& Ffast = 0 ∧ tl1.flags &&& FgoR = 0
  { nowTicks := n
    rQhead := if dispatchRQ then (st.rQhead + 1) % 2 ^ 32 else st.rQhead
    tl := processExpiredT tl1 (st.rQhead % 8) }

/-- Iterate `stepTick`. -/
def runTicks : WSt → Nat → WSt
  | st, 0 => st
  | st, k + 1 => runTicks (stepTick st) k

/-- `advanceTimeTo(t)` — the source loops `for Now() != t { incTime();
run(Now()) }`; every iteration decreases the modular distance
`Val(t - Now())` by exactly one, so the loop body runs exactly that many
times. -/
def advanceTimeTo (st : WSt) (t : Ticks) : WSt :=
  runTicks st ((t.Sub (wtNowW st)).Val)

/-- `WTimer.AddExpire(tl, expire, f, arg)` — sanity checks
(`addSanityChecks`; the callback argument is the one-shot callback and is
non-nil), then store the expire, set `fActive` clearing the other internal
flags, and append at `getWheelPos(expire, now)`. -/
def AddExpire (st : WSt) (expire : Ticks) : WSt × Option GoErr :=
  let now := wtNowW st
  if st.tl.flags &&& fActive ≠ 0 then (st, some .activeTimer)
  else if st.tl.flags &&& fRunning ≠ 0 then (st, some .notResetTimer)
  else if st.tl.flags &&& fRemoved ≠ 0 then (st, some .notResetTimer)
  else if st.tl.linked = true then (st, some .invalidTimer)
  else if st.tl.infoW ≠ wheelNone ∨ st.tl.infoIdx ≠ wheelNoIdx then
    (st, some .invalidTimer)
  else
    let tl1 := { st.tl with
      expire := expire
      flags := chgFlags st.tl.flags fActive fInternalMask }
    let p := getWheelPos expire now
    if p.1 < WheelsNo then
      ({ st with tl := { tl1 with linked := true, infoW := p.1, infoIdx := p.2 } },
        none)
    else if p.1 = wheelExp then
      ({ st with tl := { tl1 with
          linked := true
          infoW := wheelExp
          infoIdx := wheelNoIdx } }, none)
    else (st, some .invalidTimer)

/-- Bounds-checked `appendTimer(tl, wheel, idx)` head: Go's implicit slice
bounds check on `wt.wheels[wheel].lsts[idx]` is made explicit; `none` models
the runtime out-of-range panic, `some e` the function's error result. -/
def appendTimerChecked (wheel idx : Nat) : Option (Option GoErr) :=
  if wheel < WheelsNo then
    if idx < wheelEntries wheel then some none else none
  else if wheel = wheelExp then some none
  else some (some .invalidTimer)

/-! ## Basic arithmetic lemmas -/

theorem maxTicksDiff_eq : MaxTicksDiff = 2 ^ 47 := rfl

theorem ticksBits_pow : 2 ^ TicksBits = 2 ^ 48 := rfl

/-- Testing the sign bit of a value below `2^48` is comparing with `2^47`. -/
theorem land_maxTicksDiff {x : Nat} (h : x < 2 ^ 48) :
    x &&& MaxTicksDiff ≠ 0 ↔ 2 ^ 47 ≤ x := by
  rw [maxTicksDiff_eq, Nat.and_two_pow x 47]
  have ht : x.testBit 47 = decide (x / 2 ^ 47 % 2 = 1) := Nat.testBit_to_div_mod
  rw [ht]
  rcases Nat.lt_or_ge x (2 ^ 47) with h1 | h1
  · have hx : x / 2 ^ 47 % 2 = 0 := by omega
    simp [hx]
    omega
  · have hx : x / 2 ^ 47 % 2 = 1 := by omega
    simp [hx]
    omega

theorem sub_val_eq (a b : Ticks) :
    (a.Sub b).v = (a.v + (2 ^ 48 - b.v % 2 ^ 48)) % 2 ^ 48 := rfl

theorem sub_val_lt (a b : Ticks) : (a.Sub b).v < 2 ^ 48 := by
  rw [sub_val_eq]; omega

/-- Characterization of `getWheelPos` with the bit widths expanded. -/
theorem getWheelPos_eq (exp now : Ticks) :
    getWheelPos exp now =
      (if (exp.Sub now).Val = 0 then (wheelExp, wheelNoIdx)
      else if (exp.Sub now).Val < 2 ^ 14 then (0, exp.Val % 2 ^ 14)
      else if (exp.Sub now).Val < 2 ^ 28 then (1, exp.Val / 2 ^ 14 % 2 ^ 14)
      else if (exp.Sub now).Val < 2 ^ 38 then (2, exp.Val / 2 ^ 28 % 2 ^ 10)
      else (3, exp.Val / 2 ^ 38 % 2 ^ 10)) := by
  unfold getWheelPos wheel0Pos wheel1Pos wheel2Pos wheel3Pos
  unfold W0Entries W1Entries W2Entries W0Bits W1Bits W2Bits W3Bits
  simp only []
  split_ifs <;> first | rfl | (exfalso; omega)

/-- C3: for tick values whose canonical values differ by strictly less than
`MaxTicksDiff = 2^(B-1)`, every comparison method (`LT`, `EQ`, `NE`, `LE`,
`GT`, `GE`) agrees with native unsigned comparison of the canonical values
(`LT` itself being defined as the sign bit of the wrapped difference). -/
theorem C3_cmp_agrees_with_native (a b : Ticks)
    (ha : a.v < 2 ^ 48) (hb : b.v < 2 ^ 48)
    (hd1 : a.v < b.v → b.v - a.v < MaxTicksDiff)
    (hd2 : b.v ≤ a.v → a.v - b.v < MaxTicksDiff) :
    (a.LT b = true ↔ a.Val < b.Val) ∧
    (a.EQ b = true ↔ a.Val = b.Val) ∧
    (a.NE b = true ↔ a.Val ≠ b.Val) ∧
    (a.LE b = true ↔ a.Val ≤ b.Val) ∧
    (a.GT b = true ↔ a.Val > b.Val) ∧
    (a.GE b = true ↔ a.Val ≥ b.Val) := by
  rw [maxTicksDiff_eq] at hd1 hd2
  have hs := sub_val_eq a b
  have hslt := sub_val_lt a b
  have hva : a.Val = a.v := by unfold Ticks.Val; rw [ticksBits_pow]; omega
  have hvb : b.Val = b.v := by unfold Ticks.Val; rw [ticksBits_pow]; omega
  have hLT : a.LT b = true ↔ a.Val < b.Val := by
    unfold Ticks.LT
    rw [bne_iff_ne, land_maxTicksDiff hslt, hva, hvb]
    omega
  have hEQ : a.EQ b = true ↔ a.Val = b.Val := by
    unfold Ticks.EQ
    rw [beq_iff_eq, hva, hvb]
    omega
  have hNE : a.NE b = true ↔ a.Val ≠ b.Val := by
    unfold Ticks.NE
    rcases hx : a.EQ b <;> simp_all
  refine ⟨hLT, hEQ, hNE, ?_, ?_, ?_⟩
  · unfold Ticks.LE
    rcases hx : a.LT b <;> rcases hy : a.EQ b <;> simp_all <;> omega
  · unfold Ticks.GT
    rcases hx : a.LT b <;> rcases hy : a.NE b <;> simp_all <;> omega
  · unfold Ticks.GE
    rw [beq_iff_eq, hva, hvb]
    have hland := land_maxTicksDiff hslt
    constructor
    · intro h
      have h2 : ¬(2 ^ 47 ≤ (a.Sub b).v) := fun hc => (hland.mpr hc) h
      omega
    · intro h
      by_contra hne
      have := hland.mp hne
      omega

theorem C3_witness :
    ((⟨5⟩ : Ticks).v < 2 ^ 48) ∧ ((⟨7⟩ : Ticks).v < 2 ^ 48) ∧
    ((Ticks.LT ⟨5⟩ ⟨7⟩ = true ↔ Ticks.Val ⟨5⟩ < Ticks.Val ⟨7⟩) ∧
     (Ticks.EQ ⟨5⟩ ⟨7⟩ = true ↔ Ticks.Val ⟨5⟩ = Ticks.Val ⟨7⟩) ∧
     (Ticks.NE ⟨5⟩ ⟨7⟩ = true ↔ Ticks.Val ⟨5⟩ ≠ Ticks.Val ⟨7⟩) ∧
     (Ticks.LE ⟨5⟩ ⟨7⟩ = true ↔ Ticks.Val ⟨5⟩ ≤ Ticks.Val ⟨7⟩) ∧
     (Ticks.GT ⟨5⟩ ⟨7⟩ = true ↔ Ticks.Val ⟨5⟩ > Ticks.Val ⟨7⟩) ∧
     (Ticks.GE ⟨5⟩ ⟨7⟩ = true ↔ Ticks.Val ⟨5⟩ ≥ Ticks.Val ⟨7⟩)) :=
  ⟨by decide, by decide,
    C3_cmp_agrees_with_native ⟨5⟩ ⟨7⟩ (by decide) (by decide)
      (fun _ => by decide) (fun h => by simp at h)⟩

/-- C2: `getWheelPos` places a timer according to the modular distance
`Δ = Val(exp - now)`: the expired list at `Δ = 0`, wheel 0 slot
`exp & maskW0` for `Δ < 2^W0`, wheel 1 slot `(exp >> W0) & maskW1` for
`Δ < 2^(W0+W1)`, wheel 2 slot `(exp >> (W0+W1)) & maskW2` for
`Δ < 2^(W0+W1+W2)`, wheel 3 slot `(exp >> (W0+W1+W2)) & maskW3` otherwise. -/
theorem C2_wheel_placement (exp now : Ticks) :
    ((exp.Sub now).Val = 0 → getWheelPos exp now = (wheelExp, wheelNoIdx)) ∧
    (0 < (exp.Sub now).Val → (exp.Sub now).Val < 2 ^ 14 →
      getWheelPos exp now = (0, exp.Val % 2 ^ 14)) ∧
    (2 ^ 14 ≤ (exp.Sub now).Val → (exp.Sub now).Val < 2 ^ 28 →
      getWheelPos exp now = (1, exp.Val / 2 ^ 14 % 2 ^ 14)) ∧
    (2 ^ 28 ≤ (exp.Sub now).Val → (exp.Sub now).Val < 2 ^ 38 →
      getWheelPos exp now = (2, exp.Val / 2 ^ 28 % 2 ^ 10)) ∧
    (2 ^ 38 ≤ (exp.Sub now).Val →
      getWheelPos exp now = (3, exp.Val / 2 ^ 38 % 2 ^ 10)) := by
  rw [getWheelPos_eq]
  refine ⟨?_, ?_, ?_, ?_, ?_⟩ <;> intros <;>
    first
    | rw [if_pos (by omega)]
    | rw [if_neg (by omega), if_pos (by omega)]
    | rw [if_neg (by omega), if_neg (by omega), if_pos (by omega)]
    | rw [if_neg (by omega), if_neg (by omega), if_neg (by omega),
        if_pos (by omega)]
    | rw [if_neg (by omega), if_neg (by omega), if_neg (by omega),
        if_neg (by omega)]

theorem C2_witness :
    0 < (Ticks.Sub ⟨16390⟩ ⟨6⟩).Val ∧ (Ticks.Sub ⟨16390⟩ ⟨6⟩).Val < 2 ^ 28 ∧
    getWheelPos ⟨16390⟩ ⟨6⟩ = (1, Ticks.Val ⟨16390⟩ / 2 ^ 14 % 2 ^ 14) :=
  ⟨by decide, by decide,
    (C2_wheel_placement ⟨16390⟩ ⟨6⟩).2.2.1 (by decide) (by decide)⟩

theorem appendTimerChecked_wheel (w i : Nat) (hw : w < WheelsNo)
    (hi : i < wheelEntries w) : appendTimerChecked w i = some none := by
  unfold appendTimerChecked
  rw [if_pos hw, if_pos hi]

theorem appendTimerChecked_exp (i : Nat) :
    appendTimerChecked wheelExp i = some none := by
  unfold appendTimerChecked
  rw [if_neg (by norm_num [wheelExp, WheelsNo]), if_pos rfl]

theorem wheelEntries_val :
    wheelEntries 0 = 2 ^ 14 ∧ wheelEntries 1 = 2 ^ 14 ∧
    wheelEntries 2 = 2 ^ 10 ∧ wheelEntries 3 = 2 ^ 10 := by
  refine ⟨?_, ?_, ?_, ?_⟩ <;> rfl

/-- C10: `getWheelPos` always returns a wheel in `0..3` with a slot index
strictly below that wheel's size, or the sentinel `(Expired, NoIdx)`; hence
`appendTimer` never indexes a wheel slot array out of bounds (and never even
reaches the invalid-wheel error branch). -/
theorem C10_getWheelPos_in_bounds (exp now : Ticks) :
    ((getWheelPos exp now).1 = 0 ∧ (getWheelPos exp now).2 < 2 ^ 14 ∨
     (getWheelPos exp now).1 = 1 ∧ (getWheelPos exp now).2 < 2 ^ 14 ∨
     (getWheelPos exp now).1 = 2 ∧ (getWheelPos exp now).2 < 2 ^ 10 ∨
     (getWheelPos exp now).1 = 3 ∧ (getWheelPos exp now).2 < 2 ^ 10 ∨
     (getWheelPos exp now).1 = wheelExp ∧ (getWheelPos exp now).2 = wheelNoIdx) ∧
    appendTimerChecked (getWheelPos exp now).1 (getWheelPos exp now).2 =
      some none := by
  rw [getWheelPos_eq]
  split_ifs
  · exact ⟨by simp, appendTimerChecked_exp _⟩
  · exact ⟨by simp [Nat.mod_lt],
      appendTimerChecked_wheel 0 _ (by norm_num [WheelsNo])
        (by rw [wheelEntries_val.1]; exact Nat.mod_lt _ (by norm_num))⟩
  · exact ⟨by simp [Nat.mod_lt],
      appendTimerChecked_wheel 1 _ (by norm_num [WheelsNo])
        (by rw [wheelEntries_val.2.1]; exact Nat.mod_lt _ (by norm_num))⟩
  · exact ⟨by simp [Nat.mod_lt],
      appendTimerChecked_wheel 2 _ (by norm_num [WheelsNo])
        (by rw [wheelEntries_val.2.2.1]; exact Nat.mod_lt _ (by norm_num))⟩
  · exact ⟨by simp [Nat.mod_lt],
      appendTimerChecked_wheel 3 _ (by norm_num [WheelsNo])
        (by rw [wheelEntries_val.2.2.2]; exact Nat.mod_lt _ (by norm_num))⟩

/-! ## Int64 helper lemmas -/

theorem int64Wrap_of_range {x : Int} (h0 : -(2 ^ 63) ≤ x) (h1 : x < 2 ^ 63) :
    int64Wrap x = x := by
  unfold int64Wrap
  omega

theorem tdiv_ofNat (m n : Nat) : Int.tdiv (m : Int) (n : Int) = ((m / n : Nat) : Int) := rfl

theorem tmod_ofNat (m n : Nat) : Int.tmod (m : Int) (n : Int) = ((m % n : Nat) : Int) := rfl

theorem ticksOfInt_ofNat (m : Nat) : ticksOfInt (m : Int) = ⟨m % 2 ^ 48⟩ := by
  unfold ticksOfInt
  congr 1

theorem hour24_val : 24 * Hour = (86400000000000 : Int) := by
  unfold Hour
  norm_num

/-- C4 (amended): for a non-negative int64 duration `d` and a valid tick
duration `td`, `TicksRoundUp` returns 1 tick when `d` converts to 0 whole
ticks, the rounded-down count plus one when the remainder is at least
`⌊td/2⌋` (the integer `50*td/100` — for odd `td` this is half a nanosecond
below an exact 50% of a tick), and the rounded-down count otherwise. -/
theorem C4_ticksRoundUp (td d : Nat) (h1 : 1000 ≤ td) (h2 : (td : Int) ≤ 24 * Hour)
    (hd : (d : Int) < 2 ^ 63) :
    (d / td % 2 ^ 48 = 0 → wtTicksRoundUp td d = NewTicks 1) ∧
    (d / td % 2 ^ 48 ≠ 0 → td / 2 ≤ d % td → wtTicksRoundUp td d = NewTicks (d / td + 1)) ∧
    (d / td % 2 ^ 48 ≠ 0 → d % td < td / 2 → wtTicksRoundUp td d = NewTicks (d / td)) := by
  rw [hour24_val] at h2
  have htd2 : td ≤ 86400000000000 := by omega
  have htdne : ((td : Nat) : Int) ≠ 0 := by omega
  have hhalf : Int.tdiv (int64Wrap (50 * (td : Nat))) 100 = ((td / 2 : Nat) : Int) := by
    rw [show (50 * ((td : Nat) : Int)) = ((50 * td : Nat) : Int) by push_cast; ring]
    rw [int64Wrap_of_range (by omega) (by push_cast; omega)]
    rw [show ((100 : Int)) = ((100 : Nat) : Int) by norm_num]
    rw [tdiv_ofNat]
    congr 1
    omega
  have hpair : wtTicks td d = (⟨d / td % 2 ^ 48⟩, ((d % td : Nat) : Int)) := by
    unfold wtTicks
    rw [if_pos htdne]
    rw [show ((100 : Int)) = ((100 : Nat) : Int) by norm_num] at hhalf
    rw [tdiv_ofNat, tmod_ofNat, ticksOfInt_ofNat]
  have hval : (⟨d / td % 2 ^ 48⟩ : Ticks).Val = d / td % 2 ^ 48 := by
    simp only [Ticks.Val, ticksBits_pow]
    omega
  refine ⟨?_, ?_, ?_⟩
  · intro h0
    unfold wtTicksRoundUp
    rw [hpair]
    simp only [hval]
    rw [if_pos (Or.inl h0)]
    simp only [Ticks.AddUint64, NewTicks, ticksBits_pow, Ticks.mk.injEq]
    omega
  · intro h0 hrest
    unfold wtTicksRoundUp
    rw [hpair]
    simp only [hval, hhalf]
    rw [if_pos (Or.inr (by exact_mod_cast hrest))]
    simp only [Ticks.AddUint64, NewTicks, ticksBits_pow, Ticks.mk.injEq]
    omega
  · intro h0 hrest
    unfold wtTicksRoundUp
    rw [hpair]
    simp only [hval, hhalf]
    rw [if_neg]
    · simp only [NewTicks, ticksBits_pow]
    · push_neg
      exact ⟨h0, by exact_mod_cast hrest⟩

theorem C4_witness :
    wtTicksRoundUp 1000 2500 = NewTicks (2500 / 1000 + 1) :=
  (C4_ticksRoundUp 1000 2500 (by norm_num) (by rw [hour24_val]; norm_num)
    (by norm_num)).2.1 (by norm_num) (by norm_num)

/-- C4 counterexample: with the valid tick duration `td = 1001` ns and
`d = 1501` ns the remainder `500` is strictly below 50% of a tick
(`2*500 < 1001`) and the rounded-down count is `1`, yet `TicksRoundUp`
returns `2` — the code's threshold is `⌊td/2⌋ = 500`, not an exact 50%. -/
theorem C4_claim_counterexample :
    (Microsecond : Int) ≤ 1001 ∧ (1001 : Int) ≤ 24 * Hour ∧
    1501 / 1001 = 1 ∧ 2 * (1501 % 1001) < 1001 ∧
    wtTicksRoundUp 1001 1501 = NewTicks 2 ∧ NewTicks 2 ≠ NewTicks 1 := by
  refine ⟨by decide, by rw [hour24_val]; decide, by decide, by decide, ?_, by decide⟩
  decide

/-- C6 (amended): `Init(td)` succeeds exactly when 1 µs ≤ td ≤ 24 h; outside
the range it fails with a descriptive `errors.New` error — which is not the
`ErrInvalidParameters` sentinel (that error is only used for a nil
callback). -/
theorem C6_init_range (td : Int) :
    (wtInit td = none ↔ Microsecond ≤ td ∧ td ≤ 24 * Hour) ∧
    (∀ e, wtInit td = some e → e ≠ GoErr.invalidParameters) := by
  unfold wtInit
  split_ifs with ha hb
  · refine ⟨⟨(fun h => by cases h), fun hr => absurd ha (by omega)⟩, fun e he => ?_⟩
    · injection he with h
      subst h
      intro hc
      cases hc
  · refine ⟨⟨(fun h => by cases h), fun hr => absurd hb (by omega)⟩, fun e he => ?_⟩
    · injection he with h
      subst h
      intro hc
      cases hc
  · exact ⟨⟨fun _ => ⟨by omega, by omega⟩, fun _ => rfl⟩, fun e he => by cases he⟩

theorem C6_witness :
    GoErr.errNew "wtimer.Init: tick duration too small" ≠ GoErr.invalidParameters :=
  (C6_init_range 500).2 (GoErr.errNew "wtimer.Init: tick duration too small") rfl

/-- C6 counterexample: `Init(500ns)` (out of range) returns the fresh error
`errors.New("wtimer.Init: tick duration too small")`, not an error of kind
`InvalidParameters` as the claim states. -/
theorem C6_claim_counterexample :
    (500 : Int) < Microsecond ∧
    wtInit 500 = some (GoErr.errNew "wtimer.Init: tick duration too small") ∧
    GoErr.errNew "wtimer.Init: tick duration too small" ≠ GoErr.invalidParameters := by
  refine ⟨by decide, rfl, ?_⟩
  intro hc
  cases hc

/-- Bits of the byte-mask constants. -/
theorem testBit_consts (j : Nat) :
    Nat.testBit 255 j = decide (j < 8) ∧ Nat.testBit 31 j = decide (j < 5) ∧
    Nat.testBit 224 j = (decide (5 ≤ j) && decide (j < 8)) := by
  rcases Nat.lt_or_ge j 8 with hj | hj
  · interval_cases j <;> exact ⟨by decide, by decide, by decide⟩
  · have h2 : (2 : Nat) ^ 8 ≤ 2 ^ j := Nat.pow_le_pow_right (by norm_num) hj
    refine ⟨?_, ?_, ?_⟩ <;>
      rw [Nat.testBit_lt_two_pow (by omega)] <;> symm <;> simp <;> omega

/-- 8-bit flag identity behind the `Reset` claim: clearing the internal mask
and ORing sanitised user flags yields `(old | new) & 224`. -/
theorem chgFlags_reset_or (f g : Nat) :
    chgFlags f (g &&& 255 &&& (255 ^^^ fInternalMask)) fInternalMask =
      (f ||| g) &&& 224 := by
  unfold chgFlags
  rw [show fInternalMask = 31 from rfl]
  apply Nat.eq_of_testBit_eq
  intro i
  simp only [Nat.testBit_or, Nat.testBit_and, Nat.testBit_xor,
    (testBit_consts i).1, (testBit_consts i).2.1, (testBit_consts i).2.2]
  by_cases h5 : i < 5 <;> by_cases h8 : i < 8 <;>
    simp only [h5, h8, (by omega : 5 ≤ i ↔ ¬(i < 5)), decide_not,
      decide_eq_true_eq, Bool.not_true, Bool.not_false, decide_True,
      decide_False] <;>
    cases f.testBit i <;> cases g.testBit i <;> decide

/-- C7 (amended): `Reset` fails with `ActiveTimer` on an active
not-removed timer and with `InvalidTimer` on a linked timer; on success it
clears the internal flag bits and ORs in the sanitised user flags — the
resulting user-visible bits are `(old ||| flags) & ~internalMask`, not
`flags & ~internalMask`: user bits set before the call survive. -/
theorem C7_reset (tl : TimerLnk) (fl : Nat) :
    (tl.flags &&& fActive ≠ 0 → tl.flags &&& fRemoved = 0 →
      wtReset tl fl = (tl, some GoErr.activeTimer)) ∧
    (¬(tl.flags &&& fActive ≠ 0 ∧ tl.flags &&& fRemoved = 0) → tl.linked = true →
      wtReset tl fl = (tl, some GoErr.invalidTimer)) ∧
    (¬(tl.flags &&& fActive ≠ 0 ∧ tl.flags &&& fRemoved = 0) → tl.linked = false →
      wtReset tl fl = ({ tl with flags := (tl.flags ||| fl) &&& 224 }, none)) := by
  refine ⟨fun h1 h2 => ?_, fun h1 h2 => ?_, fun h1 h2 => ?_⟩
  · unfold wtReset
    rw [if_pos ⟨h1, h2⟩]
  · unfold wtReset
    rw [if_neg h1, if_pos h2]
  · unfold wtReset
    rw [if_neg h1, if_neg (by rw [h2]; exact Bool.false_ne_true)]
    simp only [chgFlags_reset_or]

theorem C7_witness :
    wtReset ⟨false, 255, 65535, 0, 0, 0, ⟨0⟩, 0⟩ 96 =
      (⟨false, 255, 65535, 96, 0, 0, ⟨0⟩, 0⟩, none) :=
  (C7_reset ⟨false, 255, 65535, 0, 0, 0, ⟨0⟩, 0⟩ 96).2.2 (by decide) rfl

/-- C7 counterexample: a detached, inactive timer carrying the user flag
`Ffast` (32) — e.g. produced by `InitTimer(tl, Ffast)` — reset with
`FgoR` (64) ends with flag byte `96 = Ffast|FgoR`, not `64`: `Reset` does
not replace the previously set user-visible flags. -/
theorem C7_claim_counterexample :
    (32 &&& fActive = 0) ∧
    (wtReset ⟨false, 255, 65535, 32, 0, 0, ⟨0⟩, 0⟩ 64).2 = none ∧
    (wtReset ⟨false, 255, 65535, 32, 0, 0, ⟨0⟩, 0⟩ 64).1.flags = 96 ∧
    96 ≠ 64 &&& (255 ^^^ fInternalMask) := by decide

/-- C8 (amended): `Ticks(Duration(t)) = (t, 0)` — the round-trip with zero
remainder — holds whenever `Val(t) * tickDuration` fits in an int64
(`< 2^63`); the multiplication in `Duration` is int64 arithmetic, so larger
products overflow and break the round-trip. -/
theorem C8_roundtrip (td : Nat) (t : Ticks) (h1 : 1000 ≤ td)
    (h2 : (td : Int) ≤ 24 * Hour) (ht : t.v < 2 ^ 48)
    (hov : (t.v : Int) * td < 2 ^ 63) :
    wtTicks td (wtDuration td t) = (t, 0) := by
  have hval : t.Val = t.v := by
    unfold Ticks.Val
    rw [ticksBits_pow]
    omega
  have hdur : wtDuration td t = ((t.v * td : Nat) : Int) := by
    unfold wtDuration
    rw [hval]
    rw [show ((t.v : Int) * td) = ((t.v * td : Nat) : Int) by push_cast; ring]
    exact int64Wrap_of_range (le_trans (by norm_num) (Int.ofNat_nonneg _))
      (by push_cast; exact hov)
  unfold wtTicks
  rw [if_pos (show ((td : Nat) : Int) ≠ 0 by omega), hdur]
  rw [tdiv_ofNat, tmod_ofNat, ticksOfInt_ofNat]
  rw [Nat.mul_div_cancel _ (by omega), Nat.mul_mod_left]
  rw [show (⟨t.v % 2 ^ 48⟩ : Ticks) = t by rw [Nat.mod_eq_of_lt ht]]
  norm_num

theorem C8_witness : wtTicks 1000 (wtDuration 1000 ⟨7⟩) = (⟨7⟩, 0) :=
  C8_roundtrip 1000 ⟨7⟩ (by norm_num) (by rw [hour24_val]; norm_num) (by norm_num)
    (by norm_num)

/-- C8 counterexample: with the valid tick duration `td = 2^33` ns (≈ 8.6 s)
and `t = 2^47`, `Duration(t)` overflows int64 to exactly `0`, and
`Ticks(Duration(t))` returns `0 ≠ t`. -/
theorem C8_claim_counterexample :
    (Microsecond : Int) ≤ 2 ^ 33 ∧ (2 ^ 33 : Int) ≤ 24 * Hour ∧
    wtTicks (2 ^ 33) (wtDuration (2 ^ 33) ⟨2 ^ 47⟩) = (⟨0⟩, 0) ∧
    (⟨0⟩ : Ticks) ≠ ⟨2 ^ 47⟩ := by
  refine ⟨by decide, by rw [hour24_val]; decide, ?_, by decide⟩
  decide

/-- C9: when the sampled wall clock runs backwards (`now < lastTickT`) the
tick engine increments `badTime` and returns 0 without advancing logical
time; while at most 10 consecutive backward events have accumulated nothing
else changes, and on the event taking the counter past 10 the engine
rebases: `lastTickT = refTS = now`, `refTicks = current ticks`. -/
theorem C9_backward_clock (st : TickerSt) (now : Int) (h : now < st.lastTickT)
    (hb : st.badTime + 1 < 2 ^ 32) :
    (ticker st now).2 = 0 ∧
    (ticker st now).1.nowTicks = st.nowTicks ∧
    (ticker st now).1.badTime = st.badTime + 1 ∧
    (st.badTime < 10 → (ticker st now).1 = { st with badTime := st.badTime + 1 }) ∧
    (10 ≤ st.badTime → (ticker st now).1 =
      { st with
        badTime := st.badTime + 1
        lastTickT := now
        refTS := now
        refTicks := st.nowTicks }) := by
  unfold ticker
  rw [if_pos h]
  have hmod : (st.badTime + 1) % 2 ^ 32 = st.badTime + 1 := by omega
  by_cases h10 : st.badTime + 1 > 10
  · rw [if_pos (by rw [hmod]; exact h10)]
    refine ⟨rfl, rfl, by simpa using hmod, fun hlt => by omega, fun _ => ?_⟩
    simp only [hmod]
  · rw [if_neg (by rw [hmod]; exact h10)]
    refine ⟨rfl, rfl, by simpa using hmod, fun _ => by simp only [hmod], fun hge => by omega⟩

theorem C9_witness :
    ((400 : Int) < (500 : Int)) ∧
    (ticker ⟨1000000, ⟨42⟩, 500, 3, 100, ⟨7⟩⟩ 400).2 = 0 ∧
    (ticker ⟨1000000, ⟨42⟩, 500, 3, 100, ⟨7⟩⟩ 400).1.badTime = 4 :=
  ⟨by norm_num, (C9_backward_clock ⟨1000000, ⟨42⟩, 500, 3, 100, ⟨7⟩⟩ 400
      (by norm_num) (by norm_num)).1,
    (C9_backward_clock ⟨1000000, ⟨42⟩, 500, 3, 100, ⟨7⟩⟩ 400
      (by norm_num) (by norm_num)).2.2.1⟩

/-- 8-bit flag-byte facts used by the delete-protocol claims. -/
theorem delFlagBits : ∀ f < 256,
    (f &&& fActive = 0 → f &&& (fActive ||| fDelete) ≠ fActive) ∧
    (f &&& fActive ≠ 0 → f &&& fDelete = 0 → f &&& (fActive ||| fDelete) = fActive) ∧
    (f &&& fDelete ≠ 0 → f &&& (fActive ||| fDelete) ≠ fActive) ∧
    (setFlags f fRemoved &&& fDelete = f &&& fDelete) ∧
    (setFlags f fRemoved &&& fRemoved ≠ 0) ∧
    (f &&& (fRunning ||| fRemoved) ≠ 0 ↔ (f &&& fRunning ≠ 0 ∨ f &&& fRemoved ≠ 0)) := by
  decide

/-- C5 (amended): in every reachable timer state, `DelTry` never sets (nor
clears) the `Delete` flag and never panics; and on an armed timer that is
not already delete-marked it removes the timer — ends with the entry
unlinked and `Removed` set, reporting `true` — exactly when the callback is
not running, while a running timer is left completely unchanged with return
`(false, nil)` so it may rearm itself.  (A timer already marked `Delete` by
a concurrent `Del` gets `(removed?, ErrDeletedTimer)`, not `(false, nil)`.) -/
theorem C5_delTry (tl : TimerLnk) (hInv : TimerInv tl) :
    (∃ tl2 rm err, wtDelTry tl = .ret tl2 rm err ∧
       tl2.flags &&& fDelete = tl.flags &&& fDelete) ∧
    (tl.flags &&& fActive ≠ 0 → tl.flags &&& fDelete = 0 →
      (tl.flags &&& fRunning ≠ 0 → wtDelTry tl = .ret tl false none) ∧
      (tl.flags &&& fRunning = 0 → ∃ tl2 err, wtDelTry tl = .ret tl2 true err ∧
         tl2.linked = false ∧ tl2.flags &&& fRemoved ≠ 0)) := by
  obtain ⟨hf256, hdom, hlink, hrun, hrem, hnone, hact⟩ := hInv
  obtain ⟨hb1, hb2, hb3, hb4, hb5, hb6⟩ := delFlagBits tl.flags hf256
  unfold wtDelTry del
  by_cases hA : tl.flags &&& fActive = 0
  · rw [if_pos ⟨hb1 hA, hA⟩]
    exact ⟨⟨tl, true, some .inactiveTimer, rfl, rfl⟩,
      fun hAct _ => absurd hA hAct⟩
  · rw [if_neg (fun hc => hA hc.2)]
    by_cases hD : tl.flags &&& fDelete = 0
    · rw [if_neg (fun hc => hc.1 (hb2 hA hD))]
      rcases hdom with hw | hw | hw | hw
      · -- on a wheel 0..3
        have hl : tl.linked = true := hlink.mpr (by
          intro hc
          rw [hc] at hw
          revert hw
          decide)
        have hdet : tl.Detached = false := by
          unfold TimerLnk.Detached
          rw [hl]
          rfl
        rw [if_neg (by
            intro hc
            rw [hc] at hw
            revert hw
            decide),
          if_neg (fun hc => by
            have h255 := hrem hc
            rw [h255] at hw
            revert hw
            decide),
          if_neg (fun hc => by
            rw [hdet] at hc
            exact absurd hc.2 (by simp)),
          if_pos (show tl.infoW < WheelsNo from hw)]
        refine ⟨⟨_, _, _, rfl, hb4⟩, fun _ _ => ⟨fun hR => ?_, fun _ => ⟨_, _, rfl, rfl, hb5⟩⟩⟩
        rcases hrun hR with h2 | h2 <;> · rw [h2] at hw; exact absurd hw (by decide)
      · -- on the expired list
        have hl : tl.linked = true := hlink.mpr (by rw [hw]; decide)
        have hdet : tl.Detached = false := by
          unfold TimerLnk.Detached
          rw [hl]
          rfl
        have hR0 : tl.flags &&& fRunning = 0 := by
          by_contra hc
          rcases hrun hc with h2 | h2 <;> · rw [h2] at hw; revert hw; decide
        rw [if_neg (by rw [hw]; decide),
          if_neg (fun hc => by rw [hrem hc] at hw; revert hw; decide),
          if_neg (fun hc => by
            rw [hdet] at hc
            exact absurd hc.2 (by simp)),
          if_neg (by rw [hw]; decide),
          if_pos (by rw [hw]),
          if_pos hR0]
        exact ⟨⟨_, _, _, rfl, hb4⟩, fun _ _ =>
          ⟨fun hR => absurd hR0 hR, fun _ => ⟨_, _, rfl, rfl, hb5⟩⟩⟩
      · -- on a run queue
        rw [if_neg (by rw [hw]; decide),
          if_neg (fun hc => by rw [hrem hc] at hw; revert hw; decide),
          if_neg (fun hc => by rw [hw] at hc; exact hc.1 rfl),
          if_neg (by rw [hw]; decide),
          if_neg (by rw [hw]; decide),
          if_pos (by rw [hw])]
        by_cases hR : tl.flags &&& fRunning = 0
        · rw [if_pos hR]
          exact ⟨⟨_, _, _, rfl, hb4⟩, fun _ _ =>
            ⟨fun hR2 => absurd hR hR2, fun _ => ⟨_, _, rfl, rfl, hb5⟩⟩⟩
        · rw [if_neg hR, if_neg (by decide)]
          exact ⟨⟨tl, false, none, rfl, rfl⟩, fun _ _ =>
            ⟨fun _ => rfl, fun hR2 => absurd hR2 hR⟩⟩
      · -- on no list
        rw [if_pos (by rw [hw])]
        by_cases hR : tl.flags &&& fRunning = 0
        · rw [if_neg (fun hc => hc hR)]
          have hl : tl.linked = false := by
            rcases hx : tl.linked with _ | _
            · rfl
            · exact absurd (hlink.mp hx) (by rw [hw]; simp [wheelNone])
          have hRem : tl.flags &&& fRemoved ≠ 0 := by
            rcases hb6.mp (hnone hw) with h2 | h2
            · exact absurd h2 (fun hc => hc hR)
            · exact h2
          exact ⟨⟨tl, true, some .alreadyRemovedTimer, rfl, rfl⟩, fun _ _ =>
            ⟨fun hR2 => absurd hR hR2, fun _ => ⟨tl, _, rfl, hl, hRem⟩⟩⟩
        · rw [if_pos hR, if_neg (by decide)]
          exact ⟨⟨tl, false, none, rfl, rfl⟩, fun _ _ =>
            ⟨fun _ => rfl, fun hR2 => absurd hR2 hR⟩⟩
    · rw [if_pos ⟨hb3 hD, by decide⟩, if_neg (by decide)]
      exact ⟨⟨tl, _, some .deletedTimer, rfl, rfl⟩, fun _ hD2 => absurd hD2 hD⟩

theorem C5_witness :
    TimerInv ⟨true, 0, 5, 2, 255, 65535, ⟨7⟩, 0⟩ ∧
    (∃ tl2 err, wtDelTry ⟨true, 0, 5, 2, 255, 65535, ⟨7⟩, 0⟩ = .ret tl2 true err ∧
      tl2.linked = false ∧ tl2.flags &&& fRemoved ≠ 0) :=
  ⟨by decide,
    ((C5_delTry ⟨true, 0, 5, 2, 255, 65535, ⟨7⟩, 0⟩ (by decide)).2
      (by decide) (by decide)).2 (by decide)⟩

/-- C5 counterexample: the reachable state "armed, callback running,
already marked `Delete` by an earlier `Del`" (flags
`fActive|fDelete|fRunning = 14`, wheel `None`) is a state with the callback
currently running, yet `DelTry` returns `(false, ErrDeletedTimer)` — not
`(false, nil)` as the claim asserts for every reachable state. -/
theorem C5_claim_counterexample :
    TimerInv ⟨false, 255, 65535, 14, 253, 0, ⟨0⟩, 0⟩ ∧
    (14 &&& fRunning ≠ 0) ∧
    wtDelTry ⟨false, 255, 65535, 14, 253, 0, ⟨0⟩, 0⟩ =
      .ret ⟨false, 255, 65535, 14, 253, 0, ⟨0⟩, 0⟩ false (some .deletedTimer) := by
  exact ⟨by decide, by decide, by decide⟩

/-! ## Virtual-time lemmas for the wheel machine

During a single `advanceTimeTo` run starting below `2^48` the uint64 counter
never wraps, so the machine can be reasoned about over the plain natural
"virtual" time `v`; every slot function of the masked counter `v % 2^48`
equals the same function of `v` because the wheel moduli divide `2^48`. -/

theorem val_eq (t : Ticks) : t.Val = t.v % 2 ^ 48 := rfl

theorem val_mk (x : Nat) : (⟨x⟩ : Ticks).Val = x % 2 ^ 48 := rfl

theorem sub_mk (a b : Nat) :
    (Ticks.Sub ⟨a⟩ ⟨b⟩).v = (a + (2 ^ 48 - b % 2 ^ 48)) % 2 ^ 48 := rfl

theorem newTicks_eq (v : Nat) : NewTicks v = ⟨v % 2 ^ 48⟩ := rfl

theorem newTicks_val (v : Nat) : (NewTicks v).Val = v % 2 ^ 48 := by
  rw [newTicks_eq, val_mk]
  omega

theorem div_link_14 (v : Nat) : v / 2 ^ 14 / 2 ^ 14 = v / 2 ^ 28 := by
  rw [Nat.div_div_eq_div_mul]
  norm_num

theorem div_link_28 (v : Nat) : v / 2 ^ 28 / 2 ^ 10 = v / 2 ^ 38 := by
  rw [Nat.div_div_eq_div_mul]
  norm_num

theorem mod48_slot0 (v : Nat) : v % 2 ^ 48 % 2 ^ 14 = v % 2 ^ 14 := by omega

theorem mod48_slot1 (v : Nat) : v % 2 ^ 48 / 2 ^ 14 % 2 ^ 14 = v / 2 ^ 14 % 2 ^ 14 := by
  have h := Nat.mod_mul_right_div_self v (2 ^ 14) (2 ^ 34)
  rw [show (2 ^ 14 * 2 ^ 34 : Nat) = 2 ^ 48 by norm_num] at h
  rw [h]
  omega

theorem mod48_slot2 (v : Nat) : v % 2 ^ 48 / 2 ^ 28 % 2 ^ 10 = v / 2 ^ 28 % 2 ^ 10 := by
  have h := Nat.mod_mul_right_div_self v (2 ^ 28) (2 ^ 20)
  rw [show (2 ^ 28 * 2 ^ 20 : Nat) = 2 ^ 48 by norm_num] at h
  rw [h]
  omega

theorem mod48_slot3 (v : Nat) : v % 2 ^ 48 / 2 ^ 38 % 2 ^ 10 = v / 2 ^ 38 % 2 ^ 10 := by
  have h := Nat.mod_mul_right_div_self v (2 ^ 38) (2 ^ 10)
  rw [show (2 ^ 38 * 2 ^ 10 : Nat) = 2 ^ 48 by norm_num] at h
  rw [h]
  omega

theorem sub_virtual (E v : Nat) (hv : v ≤ E) (hE : E - v < 2 ^ 48) :
    (Ticks.Sub ⟨E % 2 ^ 48⟩ ⟨v % 2 ^ 48⟩).Val = E - v := by
  rw [val_eq, sub_mk]
  omega

theorem lt_virtual_false (E v : Nat) (hv : v ≤ E) (hE : E - v < 2 ^ 47) :
    Ticks.LT ⟨E % 2 ^ 48⟩ ⟨v % 2 ^ 48⟩ = false := by
  unfold Ticks.LT
  have hz : (Ticks.Sub ⟨E % 2 ^ 48⟩ ⟨v % 2 ^ 48⟩).v &&& MaxTicksDiff = 0 := by
    by_contra hc
    have hlt := (land_maxTicksDiff (sub_val_lt _ _)).mp hc
    rw [sub_mk] at hlt
    omega
  rw [hz]
  rfl

/-- `getWheelPos` over virtual time: for `v ≤ E` with `E - v < 2^48`, the
placement of a timer expiring at tick `E % 2^48` seen from tick `v % 2^48`
is determined by the plain difference `E - v` and the bits of `E`. -/
theorem getWheelPos_virtual (E v : Nat) (hv : v ≤ E) (hE : E - v < 2 ^ 48) :
    getWheelPos ⟨E % 2 ^ 48⟩ ⟨v % 2 ^ 48⟩ =
      (if E - v = 0 then (wheelExp, wheelNoIdx)
      else if E - v < 2 ^ 14 then (0, E % 2 ^ 14)
      else if E - v < 2 ^ 28 then (1, E / 2 ^ 14 % 2 ^ 14)
      else if E - v < 2 ^ 38 then (2, E / 2 ^ 28 % 2 ^ 10)
      else (3, E / 2 ^ 38 % 2 ^ 10)) := by
  rw [getWheelPos_eq, sub_virtual E v hv hE]
  rw [show (⟨E % 2 ^ 48⟩ : Ticks).Val = E % 2 ^ 48 by rw [val_mk]; omega]
  rw [mod48_slot0, mod48_slot1, mod48_slot2, mod48_slot3]

/-! ### `redistTimerT` landing lemmas -/

theorem redistTimerT_to_exp (tl : TimerLnk) (E v : Nat)
    (hexp : tl.expire = ⟨E % 2 ^ 48⟩) (hv : v ≤ E) (hE : E - v < 2 ^ 47)
    (hd0 : E - v = 0) (hne : ¬(wheelExp = tl.infoW ∧ wheelNoIdx = tl.infoIdx)) :
    redistTimerT tl (NewTicks v) =
      { tl with linked := true, infoW := wheelExp, infoIdx := wheelNoIdx } := by
  have hp : getWheelPos ⟨E % 2 ^ 48⟩ ⟨v % 2 ^ 48⟩ = (wheelExp, wheelNoIdx) := by
    rw [getWheelPos_virtual E v hv (by omega), if_pos hd0]
  unfold redistTimerT
  rw [newTicks_eq, hexp, lt_virtual_false E v hv hE]
  simp only [Bool.false_eq_true, if_false, hp]
  rw [if_neg (fun hc => hne ⟨hc.1, hc.2⟩),
    if_neg (show ¬(wheelExp < WheelsNo) by decide), if_pos trivial]

theorem redistTimerT_to_w0 (tl : TimerLnk) (E v : Nat)
    (hexp : tl.expire = ⟨E % 2 ^ 48⟩) (hv : v ≤ E) (hE : E - v < 2 ^ 47)
    (hd : 0 < E - v) (hd14 : E - v < 2 ^ 14)
    (hne : ¬((0 : Nat) = tl.infoW ∧ E % 2 ^ 14 = tl.infoIdx)) :
    redistTimerT tl (NewTicks v) =
      { tl with linked := true, infoW := 0, infoIdx := E % 2 ^ 14 } := by
  have hp : getWheelPos ⟨E % 2 ^ 48⟩ ⟨v % 2 ^ 48⟩ = (0, E % 2 ^ 14) := by
    rw [getWheelPos_virtual E v hv (by omega), if_neg (by omega), if_pos hd14]
  unfold redistTimerT
  rw [newTicks_eq, hexp, lt_virtual_false E v hv hE]
  simp only [Bool.false_eq_true, if_false, hp]
  rw [if_neg (fun hc => hne ⟨hc.1, hc.2⟩),
    if_pos (show (0 : Nat) < WheelsNo by decide)]

theorem redistTimerT_to_w1 (tl : TimerLnk) (E v : Nat)
    (hexp : tl.expire = ⟨E % 2 ^ 48⟩) (hv : v ≤ E) (hE : E - v < 2 ^ 47)
    (hd : 2 ^ 14 ≤ E - v) (hd28 : E - v < 2 ^ 28)
    (hne : ¬((1 : Nat) = tl.infoW ∧ E / 2 ^ 14 % 2 ^ 14 = tl.infoIdx)) :
    redistTimerT tl (NewTicks v) =
      { tl with linked := true, infoW := 1, infoIdx := E / 2 ^ 14 % 2 ^ 14 } := by
  have hp : getWheelPos ⟨E % 2 ^ 48⟩ ⟨v % 2 ^ 48⟩ = (1, E / 2 ^ 14 % 2 ^ 14) := by
    rw [getWheelPos_virtual E v hv (by omega), if_neg (by omega), if_neg (by omega),
      if_pos hd28]
  unfold redistTimerT
  rw [newTicks_eq, hexp, lt_virtual_false E v hv hE]
  simp only [Bool.false_eq_true, if_false, hp]
  rw [if_neg (fun hc => hne ⟨hc.1, hc.2⟩),
    if_pos (show (1 : Nat) < WheelsNo by decide)]

theorem redistTimerT_to_w2 (tl : TimerLnk) (E v : Nat)
    (hexp : tl.expire = ⟨E % 2 ^ 48⟩) (hv : v ≤ E) (hE : E - v < 2 ^ 47)
    (hd : 2 ^ 28 ≤ E - v) (hd38 : E - v < 2 ^ 38)
    (hne : ¬((2 : Nat) = tl.infoW ∧ E / 2 ^ 28 % 2 ^ 10 = tl.infoIdx)) :
    redistTimerT tl (NewTicks v) =
      { tl with linked := true, infoW := 2, infoIdx := E / 2 ^ 28 % 2 ^ 10 } := by
  have hp : getWheelPos ⟨E % 2 ^ 48⟩ ⟨v % 2 ^ 48⟩ = (2, E / 2 ^ 28 % 2 ^ 10) := by
    rw [getWheelPos_virtual E v hv (by omega), if_neg (by omega), if_neg (by omega),
      if_neg (by omega), if_pos hd38]
  unfold redistTimerT
  rw [newTicks_eq, hexp, lt_virtual_false E v hv hE]
  simp only [Bool.false_eq_true, if_false, hp]
  rw [if_neg (fun hc => hne ⟨hc.1, hc.2⟩),
    if_pos (show (2 : Nat) < WheelsNo by decide)]

/-! ### `redistTimersT` shape lemmas (single timer) -/

theorem w0pos_virtual (v : Nat) : wheel0Pos ((NewTicks v).Val) = v % 2 ^ 14 := by
  rw [newTicks_val]
  exact mod48_slot0 v

theorem w1pos_virtual (v : Nat) :
    wheel1Pos ((NewTicks v).Val) = v / 2 ^ 14 % 2 ^ 14 := by
  rw [newTicks_val]
  exact mod48_slot1 v

theorem w2pos_virtual (v : Nat) :
    wheel2Pos ((NewTicks v).Val) = v / 2 ^ 28 % 2 ^ 10 := by
  rw [newTicks_val]
  exact mod48_slot2 v

theorem w3pos_virtual (v : Nat) :
    wheel3Pos ((NewTicks v).Val) = v / 2 ^ 38 % 2 ^ 10 := by
  rw [newTicks_val]
  exact mod48_slot3 v

theorem redistTimersT_unlinked (tl : TimerLnk) (now : Ticks)
    (h : tl.linked = false) : redistTimersT tl now = tl := by
  unfold redistTimersT redistLstT
  simp [h]

theorem redistTimersT_exp_stay (tl : TimerLnk) (v : Nat)
    (hw : tl.infoW = wheelExp) : redistTimersT tl (NewTicks v) = tl := by
  unfold redistTimersT redistLstT
  simp [hw, wheelExp]

theorem redistTimersT_w0_stay (tl : TimerLnk) (v : Nat)
    (hw : tl.infoW = 0) (hi : tl.infoIdx ≠ v % 2 ^ 14) :
    redistTimersT tl (NewTicks v) = tl := by
  have hin : tl.infoIdx ≠ v % 16384 := hi
  unfold redistTimersT redistLstT
  simp [w0pos_virtual, w1pos_virtual, w2pos_virtual, w3pos_virtual, hw, hin]

theorem redistTimersT_w0_drain (tl : TimerLnk) (v : Nat)
    (hl : tl.linked = true) (hw : tl.infoW = 0) (hi : tl.infoIdx = v % 2 ^ 14) :
    redistTimersT tl (NewTicks v) =
      { tl with infoW := wheelExp, infoIdx := wheelNoIdx } := by
  have hin : tl.infoIdx = v % 16384 := hi
  unfold redistTimersT redistLstT
  simp [w0pos_virtual, w1pos_virtual, w2pos_virtual, w3pos_virtual, hw, hin, hl]

theorem redistTimersT_w1_stay (tl : TimerLnk) (v : Nat)
    (hw : tl.infoW = 1)
    (hng : ¬(v % 2 ^ 14 = 0 ∧ tl.infoIdx = v / 2 ^ 14 % 2 ^ 14)) :
    redistTimersT tl (NewTicks v) = tl := by
  unfold redistTimersT redistLstT
  by_cases hz : v % 2 ^ 14 = 0
  · have hzn : v % 16384 = 0 := hz
    have hin : tl.infoIdx ≠ v / 16384 % 16384 := fun hc => hng ⟨hz, hc⟩
    simp [w0pos_virtual, w1pos_virtual, w2pos_virtual, w3pos_virtual, hw, hzn, hin]
  · have hzn : ¬(v % 16384 = 0) := hz
    simp [w0pos_virtual, hw, hzn]

theorem redistTimersT_w1_cascade (tl tl2 : TimerLnk) (v : Nat)
    (hl : tl.linked = true) (hw : tl.infoW = 1)
    (hz : v % 2 ^ 14 = 0) (hi : tl.infoIdx = v / 2 ^ 14 % 2 ^ 14)
    (hred : redistTimerT tl (NewTicks v) = tl2)
    (hnd : ¬(tl2.linked = true ∧ tl2.infoW = 0 ∧ tl2.infoIdx = v % 2 ^ 14)) :
    redistTimersT tl (NewTicks v) = tl2 := by
  have hzn : v % 16384 = 0 := hz
  have hin : tl.infoIdx = v / 16384 % 16384 := hi
  have hndn : ¬(tl2.linked = true ∧ tl2.infoW = 0 ∧ tl2.infoIdx = v % 16384) := hnd
  rw [hzn] at hndn
  unfold redistTimersT redistLstT
  simp [w0pos_virtual, w1pos_virtual, w2pos_virtual, w3pos_virtual, hw, hzn, hin,
    hl, hred, hndn]

theorem redistTimersT_w2_stay (tl : TimerLnk) (v : Nat)
    (hw : tl.infoW = 2)
    (hng : ¬(v % 2 ^ 14 = 0 ∧ v / 2 ^ 14 % 2 ^ 14 = 0 ∧
      tl.infoIdx = v / 2 ^ 28 % 2 ^ 10)) :
    redistTimersT tl (NewTicks v) = tl := by
  unfold redistTimersT redistLstT
  by_cases hz0 : v % 2 ^ 14 = 0
  · by_cases hz1 : v / 2 ^ 14 % 2 ^ 14 = 0
    · have hz0n : v % 16384 = 0 := hz0
      have hz1n : v / 16384 % 16384 = 0 := hz1
      have hin : tl.infoIdx ≠ v / 268435456 % 1024 := fun hc => hng ⟨hz0, hz1, hc⟩
      simp [w0pos_virtual, w1pos_virtual, w2pos_virtual, w3pos_virtual, hw, hz0n,
        hz1n, hin]
    · have hz0n : v % 16384 = 0 := hz0
      have hz1n : ¬(v / 16384 % 16384 = 0) := hz1
      simp [w0pos_virtual, w1pos_virtual, hw, hz0n, hz1n]
  · have hz0n : ¬(v % 16384 = 0) := hz0
    simp [w0pos_virtual, hw, hz0n]

theorem redistTimersT_w2_cascade (tl tl2 : TimerLnk) (v : Nat)
    (hl : tl.linked = true) (hw : tl.infoW = 2)
    (hz0 : v % 2 ^ 14 = 0) (hz1 : v / 2 ^ 14 % 2 ^ 14 = 0)
    (hi : tl.infoIdx = v / 2 ^ 28 % 2 ^ 10)
    (hred : redistTimerT tl (NewTicks v) = tl2)
    (hn1 : ¬(tl2.linked = true ∧ tl2.infoW = 1 ∧ tl2.infoIdx = v / 2 ^ 14 % 2 ^ 14))
    (hnd : ¬(tl2.linked = true ∧ tl2.infoW = 0 ∧ tl2.infoIdx = v % 2 ^ 14)) :
    redistTimersT tl (NewTicks v) = tl2 := by
  have hz0n : v % 16384 = 0 := hz0
  have hz1n : v / 16384 % 16384 = 0 := hz1
  have hin : tl.infoIdx = v / 268435456 % 1024 := hi
  have hn1n : ¬(tl2.linked = true ∧ tl2.infoW = 1 ∧ tl2.infoIdx = v / 16384 % 16384) := hn1
  have hndn : ¬(tl2.linked = true ∧ tl2.infoW = 0 ∧ tl2.infoIdx = v % 16384) := hnd
  rw [hz0n] at hndn
  rw [hz1n] at hn1n
  unfold redistTimersT redistLstT
  simp [w0pos_virtual, w1pos_virtual, w2pos_virtual, w3pos_virtual, hw, hz0n, hz1n,
    hin, hl, hred, hn1n, hndn]

theorem redistTimersT_w3_stay (tl : TimerLnk) (v : Nat)
    (hw : tl.infoW = 3)
    (hng : ¬(v % 2 ^ 14 = 0 ∧ v / 2 ^ 14 % 2 ^ 14 = 0 ∧ v / 2 ^ 28 % 2 ^ 10 = 0 ∧
      tl.infoIdx = v / 2 ^ 38 % 2 ^ 10)) :
    redistTimersT tl (NewTicks v) = tl := by
  unfold redistTimersT redistLstT
  by_cases hz0 : v % 2 ^ 14 = 0
  · by_cases hz1 : v / 2 ^ 14 % 2 ^ 14 = 0
    · by_cases hz2 : v / 2 ^ 28 % 2 ^ 10 = 0
      · have hz0n : v % 16384 = 0 := hz0
        have hz1n : v / 16384 % 16384 = 0 := hz1
        have hz2n : v / 268435456 % 1024 = 0 := hz2
        have hin : tl.infoIdx ≠ v / 274877906944 % 1024 :=
          fun hc => hng ⟨hz0, hz1, hz2, hc⟩
        simp [w0pos_virtual, w1pos_virtual, w2pos_virtual, w3pos_virtual, hw,
          hz0n, hz1n, hz2n, hin]
      · have hz0n : v % 16384 = 0 := hz0
        have hz1n : v / 16384 % 16384 = 0 := hz1
        have hz2n : ¬(v / 268435456 % 1024 = 0) := hz2
        simp [w0pos_virtual, w1pos_virtual, w2pos_virtual, hw, hz0n, hz1n, hz2n]
    · have hz0n : v % 16384 = 0 := hz0
      have hz1n : ¬(v / 16384 % 16384 = 0) := hz1
      simp [w0pos_virtual, w1pos_virtual, hw, hz0n, hz1n]
  · have hz0n : ¬(v % 16384 = 0) := hz0
    simp [w0pos_virtual, hw, hz0n]

theorem redistTimersT_w3_cascade (tl tl2 : TimerLnk) (v : Nat)
    (hl : tl.linked = true) (hw : tl.infoW = 3)
    (hz0 : v % 2 ^ 14 = 0) (hz1 : v / 2 ^ 14 % 2 ^ 14 = 0)
    (hz2 : v / 2 ^ 28 % 2 ^ 10 = 0) (hi : tl.infoIdx = v / 2 ^ 38 % 2 ^ 10)
    (hred : redistTimerT tl (NewTicks v) = tl2)
    (hn2 : ¬(tl2.linked = true ∧ tl2.infoW = 2 ∧ tl2.infoIdx = v / 2 ^ 28 % 2 ^ 10))
    (hn1 : ¬(tl2.linked = true ∧ tl2.infoW = 1 ∧ tl2.infoIdx = v / 2 ^ 14 % 2 ^ 14))
    (hnd : ¬(tl2.linked = true ∧ tl2.infoW = 0 ∧ tl2.infoIdx = v % 2 ^ 14)) :
    redistTimersT tl (NewTicks v) = tl2 := by
  have hz0n : v % 16384 = 0 := hz0
  have hz1n : v / 16384 % 16384 = 0 := hz1
  have hz2n : v / 268435456 % 1024 = 0 := hz2
  have hin : tl.infoIdx = v / 274877906944 % 1024 := hi
  have hn2n : ¬(tl2.linked = true ∧ tl2.infoW = 2 ∧ tl2.infoIdx = v / 268435456 % 1024) := hn2
  have hn1n : ¬(tl2.linked = true ∧ tl2.infoW = 1 ∧ tl2.infoIdx = v / 16384 % 16384) := hn1
  have hndn : ¬(tl2.linked = true ∧ tl2.infoW = 0 ∧ tl2.infoIdx = v % 16384) := hnd
  rw [hz0n] at hndn
  rw [hz1n] at hn1n
  rw [hz2n] at hn2n
  unfold redistTimersT redistLstT
  simp [w0pos_virtual, w1pos_virtual, w2pos_virtual, w3pos_virtual, hw, hz0n, hz1n,
    hz2n, hin, hl, hred, hn2n, hn1n, hndn]

theorem processExpiredT_skip (tl : TimerLnk) (q : Nat)
    (h : ¬(tl.linked = true ∧ tl.infoW = wheelExp)) : processExpiredT tl q = tl := by
  unfold processExpiredT
  rw [if_neg h]

theorem processExpiredT_fire (tl : TimerLnk) (q : Nat)
    (hl : tl.linked = true) (hw : tl.infoW = wheelExp) :
    (processExpiredT tl q).fired = tl.fired + 1 ∧
    (processExpiredT tl q).linked = false ∧
    (processExpiredT tl q).infoW = wheelNone ∧
    (processExpiredT tl q).infoIdx = wheelNoIdx := by
  unfold processExpiredT
  rw [if_pos ⟨hl, hw⟩]
  split_ifs <;> exact ⟨rfl, rfl, rfl, rfl⟩

theorem stepTick_nowTicks (st : WSt) (hn : st.nowTicks + 1 < 2 ^ 64) :
    (stepTick st).nowTicks = st.nowTicks + 1 := by
  simp only [stepTick]
  exact Nat.mod_eq_of_lt hn

theorem stepTick_rfl (st : WSt) (hn : st.nowTicks + 1 < 2 ^ 64) :
    (stepTick st).tl =
      processExpiredT (redistTimersT st.tl (NewTicks (st.nowTicks + 1)))
        (st.rQhead % 8) := by
  simp only [stepTick]
  rw [Nat.mod_eq_of_lt hn]

theorem runTicks_succ (st : WSt) (k : Nat) :
    runTicks st (k + 1) = runTicks (stepTick st) k := rfl

theorem runTicks_add (st : WSt) (a b : Nat) :
    runTicks st (a + b) = runTicks (runTicks st a) b := by
  induction a generalizing st with
  | zero => rw [Nat.zero_add]; rfl
  | succ a ih =>
    rw [show a + 1 + b = a + b + 1 by omega, runTicks_succ, runTicks_succ, ih]

theorem step_done (st : WSt) (hn : st.nowTicks + 1 < 2 ^ 64)
    (h : st.tl.linked = false) :
    (stepTick st).tl = st.tl ∧ (stepTick st).nowTicks = st.nowTicks + 1 := by
  refine ⟨?_, stepTick_nowTicks st hn⟩
  rw [stepTick_rfl st hn, redistTimersT_unlinked st.tl _ h,
    processExpiredT_skip _ _ (fun hc => by rw [h] at hc; exact absurd hc.1 (by simp))]

theorem runTicks_done (st : WSt) (k : Nat) (hn : st.nowTicks + k < 2 ^ 64)
    (h : st.tl.linked = false) :
    (runTicks st k).tl = st.tl ∧ (runTicks st k).nowTicks = st.nowTicks + k := by
  induction k generalizing st with
  | zero => exact ⟨rfl, rfl⟩
  | succ k ih =>
    rw [runTicks_succ]
    have hstep := step_done st (by omega) h
    have ihr := ih (stepTick st) (by rw [hstep.2]; omega) (by rw [hstep.1]; exact h)
    rw [ihr.1, ihr.2, hstep.1, hstep.2]
    exact ⟨rfl, by omega⟩

/-! ### The firing inductions

`fireAt_wK st E` :  a timer linked on wheel `K` in the slot determined by its
expire tick `E` fires exactly once — at virtual tick `E` — when the machine
runs the remaining `E - nowTicks` steps, ending detached with wheel tag
`(wheelNone, wheelNoIdx)`. -/

theorem fireAt_w0 (k : Nat) : ∀ (st : WSt) (E : Nat),
    st.nowTicks + k = E → 0 < k → k < 2 ^ 14 → E < 2 ^ 63 →
    st.tl.linked = true → st.tl.infoW = 0 → st.tl.infoIdx = E % 2 ^ 14 →
    st.tl.expire = ⟨E % 2 ^ 48⟩ →
    (runTicks st k).nowTicks = E ∧
    (runTicks st k).tl.fired = st.tl.fired + 1 ∧
    (runTicks st k).tl.linked = false ∧
    (runTicks st k).tl.infoW = wheelNone ∧
    (runTicks st k).tl.infoIdx = wheelNoIdx := by
  induction k with
  | zero =>
    intro st E _ hpos _ _ _ _ _ _
    exact absurd hpos (by omega)
  | succ k ih =>
    intro st E hsum hpos h14 h63 hl hw hi hexp
    rw [runTicks_succ]
    have hn1 : st.nowTicks + 1 < 2 ^ 64 := by omega
    rcases Nat.eq_zero_or_pos k with hk0 | hkpos
    · subst hk0
      have hv : st.nowTicks + 1 = E := by omega
      have hdr := redistTimersT_w0_drain st.tl (st.nowTicks + 1) hl hw
        (by rw [hi, hv])
      have htl := stepTick_rfl st hn1
      have hf := processExpiredT_fire
        { st.tl with infoW := wheelExp, infoIdx := wheelNoIdx }
        (st.rQhead % 8) hl rfl
      simp only [runTicks]
      rw [htl, hdr]
      exact ⟨by rw [stepTick_nowTicks st hn1]; omega, hf.1, hf.2.1, hf.2.2.1,
        hf.2.2.2⟩
    · have hstay := redistTimersT_w0_stay st.tl (st.nowTicks + 1) hw
        (by rw [hi]; omega)
      have hskip := processExpiredT_skip st.tl (st.rQhead % 8)
        (fun hc => by rw [hw] at hc; exact absurd hc.2 (by decide))
      have htl : (stepTick st).tl = st.tl := by
        rw [stepTick_rfl st hn1, hstay, hskip]
      have hnow := stepTick_nowTicks st hn1
      have hres := ih (stepTick st) E (by rw [hnow]; omega) hkpos (by omega) h63
        (by rw [htl]; exact hl) (by rw [htl]; exact hw) (by rw [htl]; exact hi)
        (by rw [htl]; exact hexp)
      rw [htl] at hres
      exact hres

theorem fireAt_w1 (k : Nat) : ∀ (st : WSt) (E : Nat),
    st.nowTicks + k = E → 0 < k → k < 2 ^ 28 → E < 2 ^ 63 →
    st.nowTicks < E / 2 ^ 14 * 2 ^ 14 →
    st.tl.linked = true → st.tl.infoW = 1 → st.tl.infoIdx = E / 2 ^ 14 % 2 ^ 14 →
    st.tl.expire = ⟨E % 2 ^ 48⟩ →
    (runTicks st k).nowTicks = E ∧
    (runTicks st k).tl.fired = st.tl.fired + 1 ∧
    (runTicks st k).tl.linked = false ∧
    (runTicks st k).tl.infoW = wheelNone ∧
    (runTicks st k).tl.infoIdx = wheelNoIdx := by
  induction k with
  | zero =>
    intro st E _ hpos _ _ _ _ _ _ _
    exact absurd hpos (by omega)
  | succ k ih =>
    intro st E hsum hpos h28 h63 hT1 hl hw hi hexp
    rw [runTicks_succ]
    have hn1 : st.nowTicks + 1 < 2 ^ 64 := by omega
    have hT1le : E / 2 ^ 14 * 2 ^ 14 ≤ E := by omega
    by_cases hvT : st.nowTicks + 1 < E / 2 ^ 14 * 2 ^ 14
    · -- before the cascade boundary: the timer's wheel-1 slot is untouched
      have hstay := redistTimersT_w1_stay st.tl (st.nowTicks + 1) hw (by
        intro hc
        rw [hi] at hc
        rcases hc with ⟨hz, hidx⟩
        omega)
      have hskip := processExpiredT_skip st.tl (st.rQhead % 8)
        (fun hc => by rw [hw] at hc; exact absurd hc.2 (by decide))
      have htl : (stepTick st).tl = st.tl := by
        rw [stepTick_rfl st hn1, hstay, hskip]
      have hnow := stepTick_nowTicks st hn1
      have hres := ih (stepTick st) E (by rw [hnow]; omega) (by omega) (by omega)
        h63 (by rw [hnow]; omega) (by rw [htl]; exact hl) (by rw [htl]; exact hw)
        (by rw [htl]; exact hi) (by rw [htl]; exact hexp)
      rw [htl] at hres
      exact hres
    · -- at the boundary `v = (E >> 14) << 14`: the slot is redistributed
      have hvT1 : st.nowTicks + 1 = E / 2 ^ 14 * 2 ^ 14 := by omega
      have hz : (st.nowTicks + 1) % 2 ^ 14 = 0 := by omega
      have hiv : st.tl.infoIdx = (st.nowTicks + 1) / 2 ^ 14 % 2 ^ 14 := by
        rw [hi]
        omega
      by_cases hE14 : E % 2 ^ 14 = 0
      · -- the expire sits exactly at the boundary: straight to expired, fires
        have hk0 : k = 0 := by omega
        subst hk0
        have hred := redistTimerT_to_exp st.tl E (st.nowTicks + 1) hexp
          (by omega) (by omega) (by omega)
          (fun hc => by rw [hw] at hc; exact absurd hc.1 (by decide))
        have hcas := redistTimersT_w1_cascade st.tl _ (st.nowTicks + 1) hl hw hz
          hiv hred (fun hc => by
            have h2 : wheelExp = 0 := hc.2.1
            exact absurd h2 (by decide))
        have hf := processExpiredT_fire
          { st.tl with linked := true, infoW := wheelExp, infoIdx := wheelNoIdx }
          (st.rQhead % 8) rfl rfl
        simp only [runTicks]
        rw [stepTick_rfl st hn1, hcas]
        exact ⟨by rw [stepTick_nowTicks st hn1]; omega, hf.1, hf.2.1, hf.2.2.1,
          hf.2.2.2⟩
      · -- cascade to wheel 0 and fire there after the remaining `E % 2^14` ticks
        have hred := redistTimerT_to_w0 st.tl E (st.nowTicks + 1) hexp
          (by omega) (by omega) (by omega) (by omega)
          (fun hc => by rw [hw] at hc; exact absurd hc.1 (by decide))
        have hcas := redistTimersT_w1_cascade st.tl _ (st.nowTicks + 1) hl hw hz
          hiv hred (fun hc => by
            have h2 : E % 2 ^ 14 = (st.nowTicks + 1) % 2 ^ 14 := hc.2.2
            omega)
        have hskip := processExpiredT_skip
          { st.tl with linked := true, infoW := 0, infoIdx := E % 2 ^ 14 }
          (st.rQhead % 8) (fun hc => by
            have h2 : (0 : Nat) = wheelExp := hc.2
            exact absurd h2 (by decide))
        have htl : (stepTick st).tl =
            { st.tl with linked := true, infoW := 0, infoIdx := E % 2 ^ 14 } := by
          rw [stepTick_rfl st hn1, hcas, hskip]
        have hnow := stepTick_nowTicks st hn1
        have hres := fireAt_w0 k (stepTick st) E (by rw [hnow]; omega)
          (by omega) (by omega) h63 (by rw [htl]) (by rw [htl])
          (by rw [htl]) (by rw [htl]; exact hexp)
        rw [htl] at hres
        exact hres

theorem fireAt_w2 (k : Nat) : ∀ (st : WSt) (E : Nat),
    st.nowTicks + k = E → 0 < k → k < 2 ^ 38 → E < 2 ^ 63 →
    st.nowTicks < E / 2 ^ 28 * 2 ^ 28 →
    st.tl.linked = true → st.tl.infoW = 2 → st.tl.infoIdx = E / 2 ^ 28 % 2 ^ 10 →
    st.tl.expire = ⟨E % 2 ^ 48⟩ →
    (runTicks st k).nowTicks = E ∧
    (runTicks st k).tl.fired = st.tl.fired + 1 ∧
    (runTicks st k).tl.linked = false ∧
    (runTicks st k).tl.infoW = wheelNone ∧
    (runTicks st k).tl.infoIdx = wheelNoIdx := by
  induction k with
  | zero =>
    intro st E _ hpos _ _ _ _ _ _ _
    exact absurd hpos (by omega)
  | succ k ih =>
    intro st E hsum hpos h38 h63 hT2 hl hw hi hexp
    rw [runTicks_succ]
    have hn1 : st.nowTicks + 1 < 2 ^ 64 := by omega
    have hT2le : E / 2 ^ 28 * 2 ^ 28 ≤ E := by omega
    by_cases hvT : st.nowTicks + 1 < E / 2 ^ 28 * 2 ^ 28
    · -- before the cascade boundary: the timer's wheel-2 slot is untouched
      have hstay := redistTimersT_w2_stay st.tl (st.nowTicks + 1) hw (by
        intro hc
        rw [hi] at hc
        rcases hc with ⟨hz0, hz1, hidx⟩
        have hdlv := div_link_14 (st.nowTicks + 1)
        omega)
      have hskip := processExpiredT_skip st.tl (st.rQhead % 8)
        (fun hc => by rw [hw] at hc; exact absurd hc.2 (by decide))
      have htl : (stepTick st).tl = st.tl := by
        rw [stepTick_rfl st hn1, hstay, hskip]
      have hnow := stepTick_nowTicks st hn1
      have hres := ih (stepTick st) E (by rw [hnow]; omega) (by omega) (by omega)
        h63 (by rw [hnow]; omega) (by rw [htl]; exact hl) (by rw [htl]; exact hw)
        (by rw [htl]; exact hi) (by rw [htl]; exact hexp)
      rw [htl] at hres
      exact hres
    · -- at the boundary `v = (E >> 28) << 28`: the slot is redistributed
      have hvT2 : st.nowTicks + 1 = E / 2 ^ 28 * 2 ^ 28 := by omega
      have hz0 : (st.nowTicks + 1) % 2 ^ 14 = 0 := by omega
      have hz1 : (st.nowTicks + 1) / 2 ^ 14 % 2 ^ 14 = 0 := by omega
      have hiv : st.tl.infoIdx = (st.nowTicks + 1) / 2 ^ 28 % 2 ^ 10 := by
        rw [hi]
        omega
      by_cases hE28z : E % 2 ^ 28 = 0
      · -- the expire sits exactly at the boundary: straight to expired, fires
        have hk0 : k = 0 := by omega
        subst hk0
        have hred := redistTimerT_to_exp st.tl E (st.nowTicks + 1) hexp
          (by omega) (by omega) (by omega)
          (fun hc => by rw [hw] at hc; exact absurd hc.1 (by decide))
        have hcas := redistTimersT_w2_cascade st.tl _ (st.nowTicks + 1) hl hw hz0
          hz1 hiv hred
          (fun hc => by
            have h2 : wheelExp = 1 := hc.2.1
            exact absurd h2 (by decide))
          (fun hc => by
            have h2 : wheelExp = 0 := hc.2.1
            exact absurd h2 (by decide))
        have hf := processExpiredT_fire
          { st.tl with linked := true, infoW := wheelExp, infoIdx := wheelNoIdx }
          (st.rQhead % 8) rfl rfl
        simp only [runTicks]
        rw [stepTick_rfl st hn1, hcas]
        exact ⟨by rw [stepTick_nowTicks st hn1]; omega, hf.1, hf.2.1, hf.2.2.1,
          hf.2.2.2⟩
      · by_cases hE14 : E % 2 ^ 28 < 2 ^ 14
        · -- residual delta below 2^14: cascade directly to wheel 0
          have hred := redistTimerT_to_w0 st.tl E (st.nowTicks + 1) hexp
            (by omega) (by omega) (by omega) (by omega)
            (fun hc => by rw [hw] at hc; exact absurd hc.1 (by decide))
          have hcas := redistTimersT_w2_cascade st.tl _ (st.nowTicks + 1) hl hw
            hz0 hz1 hiv hred
            (fun hc => by
              have h2 : (0 : Nat) = 1 := hc.2.1
              exact absurd h2 (by decide))
            (fun hc => by
              have h2 : E % 2 ^ 14 = (st.nowTicks + 1) % 2 ^ 14 := hc.2.2
              omega)
          have hskip := processExpiredT_skip
            { st.tl with linked := true, infoW := 0, infoIdx := E % 2 ^ 14 }
            (st.rQhead % 8) (fun hc => by
              have h2 : (0 : Nat) = wheelExp := hc.2
              exact absurd h2 (by decide))
          have htl : (stepTick st).tl =
              { st.tl with linked := true, infoW := 0, infoIdx := E % 2 ^ 14 } := by
            rw [stepTick_rfl st hn1, hcas, hskip]
          have hnow := stepTick_nowTicks st hn1
          have hres := fireAt_w0 k (stepTick st) E (by rw [hnow]; omega)
            (by omega) (by omega) h63 (by rw [htl]) (by rw [htl])
            (by rw [htl]) (by rw [htl]; exact hexp)
          rw [htl] at hres
          exact hres
        · -- residual delta in wheel-1 range: cascade to wheel 1, fire from there
          have hdlE := div_link_14 E
          have hred := redistTimerT_to_w1 st.tl E (st.nowTicks + 1) hexp
            (by omega) (by omega) (by omega) (by omega)
            (fun hc => by rw [hw] at hc; exact absurd hc.1 (by decide))
          have hcas := redistTimersT_w2_cascade st.tl _ (st.nowTicks + 1) hl hw
            hz0 hz1 hiv hred
            (fun hc => by
              have h2 : E / 2 ^ 14 % 2 ^ 14 = (st.nowTicks + 1) / 2 ^ 14 % 2 ^ 14 :=
                hc.2.2
              omega)
            (fun hc => by
              have h2 : (1 : Nat) = 0 := hc.2.1
              exact absurd h2 (by decide))
          have hskip := processExpiredT_skip
            { st.tl with linked := true, infoW := 1, infoIdx := E / 2 ^ 14 % 2 ^ 14 }
            (st.rQhead % 8) (fun hc => by
              have h2 : (1 : Nat) = wheelExp := hc.2
              exact absurd h2 (by decide))
          have htl : (stepTick st).tl =
              { st.tl with linked := true, infoW := 1, infoIdx := E / 2 ^ 14 % 2 ^ 14 } := by
            rw [stepTick_rfl st hn1, hcas, hskip]
          have hnow := stepTick_nowTicks st hn1
          have hres := fireAt_w1 k (stepTick st) E (by rw [hnow]; omega)
            (by omega) (by omega) h63 (by rw [hnow]; omega) (by rw [htl])
            (by rw [htl]) (by rw [htl]) (by rw [htl]; exact hexp)
          rw [htl] at hres
          exact hres

set_option maxHeartbeats 2000000 in
theorem fireAt_w3 (k : Nat) : ∀ (st : WSt) (E : Nat),
    st.nowTicks + k = E → 0 < k → k < 2 ^ 47 → E < 2 ^ 63 →
    st.nowTicks < E / 2 ^ 38 * 2 ^ 38 →
    st.tl.linked = true → st.tl.infoW = 3 → st.tl.infoIdx = E / 2 ^ 38 % 2 ^ 10 →
    st.tl.expire = ⟨E % 2 ^ 48⟩ →
    (runTicks st k).nowTicks = E ∧
    (runTicks st k).tl.fired = st.tl.fired + 1 ∧
    (runTicks st k).tl.linked = false ∧
    (runTicks st k).tl.infoW = wheelNone ∧
    (runTicks st k).tl.infoIdx = wheelNoIdx := by
  induction k with
  | zero =>
    intro st E _ hpos _ _ _ _ _ _ _
    exact absurd hpos (by omega)
  | succ k ih =>
    intro st E hsum hpos h47 h63 hT3 hl hw hi hexp
    rw [runTicks_succ]
    have hn1 : st.nowTicks + 1 < 2 ^ 64 := by omega
    have hT3le : E / 2 ^ 38 * 2 ^ 38 ≤ E := by omega
    by_cases hvT : st.nowTicks + 1 < E / 2 ^ 38 * 2 ^ 38
    · -- before the cascade boundary: the timer's wheel-3 slot is untouched
      have hstay := redistTimersT_w3_stay st.tl (st.nowTicks + 1) hw (by
        intro hc
        rw [hi] at hc
        rcases hc with ⟨hz0, hz1, hz2, hidx⟩
        have hdlv := div_link_14 (st.nowTicks + 1)
        have hdlv2 := div_link_28 (st.nowTicks + 1)
        omega)
      have hskip := processExpiredT_skip st.tl (st.rQhead % 8)
        (fun hc => by rw [hw] at hc; exact absurd hc.2 (by decide))
      have htl : (stepTick st).tl = st.tl := by
        rw [stepTick_rfl st hn1, hstay, hskip]
      have hnow := stepTick_nowTicks st hn1
      have hres := ih (stepTick st) E (by rw [hnow]; omega) (by omega) (by omega)
        h63 (by rw [hnow]; omega) (by rw [htl]; exact hl) (by rw [htl]; exact hw)
        (by rw [htl]; exact hi) (by rw [htl]; exact hexp)
      rw [htl] at hres
      exact hres
    · -- at the boundary `v = (E >> 38) << 38`: the slot is redistributed
      have hvT3 : st.nowTicks + 1 = E / 2 ^ 38 * 2 ^ 38 := by omega
      have hz0 : (st.nowTicks + 1) % 2 ^ 14 = 0 := by omega
      have hz1 : (st.nowTicks + 1) / 2 ^ 14 % 2 ^ 14 = 0 := by omega
      have hz2 : (st.nowTicks + 1) / 2 ^ 28 % 2 ^ 10 = 0 := by omega
      have hiv : st.tl.infoIdx = (st.nowTicks + 1) / 2 ^ 38 % 2 ^ 10 := by
        rw [hi]
        omega
      by_cases hE38z : E % 2 ^ 38 = 0
      · -- the expire sits exactly at the boundary: straight to expired, fires
        have hk0 : k = 0 := by omega
        subst hk0
        have hred := redistTimerT_to_exp st.tl E (st.nowTicks + 1) hexp
          (by omega) (by omega) (by omega)
          (fun hc => by rw [hw] at hc; exact absurd hc.1 (by decide))
        have hcas := redistTimersT_w3_cascade st.tl _ (st.nowTicks + 1) hl hw hz0
          hz1 hz2 hiv hred
          (fun hc => by
            have h2 : wheelExp = 2 := hc.2.1
            exact absurd h2 (by decide))
          (fun hc => by
            have h2 : wheelExp = 1 := hc.2.1
            exact absurd h2 (by decide))
          (fun hc => by
            have h2 : wheelExp = 0 := hc.2.1
            exact absurd h2 (by decide))
        have hf := processExpiredT_fire
          { st.tl with linked := true, infoW := wheelExp, infoIdx := wheelNoIdx }
          (st.rQhead % 8) rfl rfl
        simp only [runTicks]
        rw [stepTick_rfl st hn1, hcas]
        exact ⟨by rw [stepTick_nowTicks st hn1]; omega, hf.1, hf.2.1, hf.2.2.1,
          hf.2.2.2⟩
      · by_cases hE14 : E % 2 ^ 38 < 2 ^ 14
        · -- residual delta below 2^14: cascade directly to wheel 0
          have hred := redistTimerT_to_w0 st.tl E (st.nowTicks + 1) hexp
            (by omega) (by omega) (by omega) (by omega)
            (fun hc => by rw [hw] at hc; exact absurd hc.1 (by decide))
          have hcas := redistTimersT_w3_cascade st.tl _ (st.nowTicks + 1) hl hw
            hz0 hz1 hz2 hiv hred
            (fun hc => by
              have h2 : (0 : Nat) = 2 := hc.2.1
              exact absurd h2 (by decide))
            (fun hc => by
              have h2 : (0 : Nat) = 1 := hc.2.1
              exact absurd h2 (by decide))
            (fun hc => by
              have h2 : E % 2 ^ 14 = (st.nowTicks + 1) % 2 ^ 14 := hc.2.2
              omega)
          have hskip := processExpiredT_skip
            { st.tl with linked := true, infoW := 0, infoIdx := E % 2 ^ 14 }
            (st.rQhead % 8) (fun hc => by
              have h2 : (0 : Nat) = wheelExp := hc.2
              exact absurd h2 (by decide))
          have htl : (stepTick st).tl =
              { st.tl with linked := true, infoW := 0, infoIdx := E % 2 ^ 14 } := by
            rw [stepTick_rfl st hn1, hcas, hskip]
          have hnow := stepTick_nowTicks st hn1
          have hres := fireAt_w0 k (stepTick st) E (by rw [hnow]; omega)
            (by omega) (by omega) h63 (by rw [htl]) (by rw [htl])
            (by rw [htl]) (by rw [htl]; exact hexp)
          rw [htl] at hres
          exact hres
        · by_cases hE28 : E % 2 ^ 38 < 2 ^ 28
          · -- residual delta in wheel-1 range: cascade to wheel 1
            have hdlE := div_link_14 E
            have hred := redistTimerT_to_w1 st.tl E (st.nowTicks + 1) hexp
              (by omega) (by omega) (by omega) (by omega)
              (fun hc => by rw [hw] at hc; exact absurd hc.1 (by decide))
            have hcas := redistTimersT_w3_cascade st.tl _ (st.nowTicks + 1) hl hw
              hz0 hz1 hz2 hiv hred
              (fun hc => by
                have h2 : (1 : Nat) = 2 := hc.2.1
                exact absurd h2 (by decide))
              (fun hc => by
                have h2 : E / 2 ^ 14 % 2 ^ 14 = (st.nowTicks + 1) / 2 ^ 14 % 2 ^ 14 :=
                  hc.2.2
                omega)
              (fun hc => by
                have h2 : (1 : Nat) = 0 := hc.2.1
                exact absurd h2 (by decide))
            have hskip := processExpiredT_skip
              { st.tl with linked := true, infoW := 1, infoIdx := E / 2 ^ 14 % 2 ^ 14 }
              (st.rQhead % 8) (fun hc => by
                have h2 : (1 : Nat) = wheelExp := hc.2
                exact absurd h2 (by decide))
            have htl : (stepTick st).tl =
                { st.tl with linked := true, infoW := 1, infoIdx := E / 2 ^ 14 % 2 ^ 14 } := by
              rw [stepTick_rfl st hn1, hcas, hskip]
            have hnow := stepTick_nowTicks st hn1
            have hres := fireAt_w1 k (stepTick st) E (by rw [hnow]; omega)
              (by omega) (by omega) h63 (by rw [hnow]; omega) (by rw [htl])
              (by rw [htl]) (by rw [htl]) (by rw [htl]; exact hexp)
            rw [htl] at hres
            exact hres
          · -- residual delta in wheel-2 range: cascade to wheel 2
            have hdlE2 := div_link_28 E
            have hred := redistTimerT_to_w2 st.tl E (st.nowTicks + 1) hexp
              (by omega) (by omega) (by omega) (by omega)
              (fun hc => by rw [hw] at hc; exact absurd hc.1 (by decide))
            have hcas := redistTimersT_w3_cascade st.tl _ (st.nowTicks + 1) hl hw
              hz0 hz1 hz2 hiv hred
              (fun hc => by
                have h2 : E / 2 ^ 28 % 2 ^ 10 = (st.nowTicks + 1) / 2 ^ 28 % 2 ^ 10 :=
                  hc.2.2
                omega)
              (fun hc => by
                have h2 : (2 : Nat) = 1 := hc.2.1
                exact absurd h2 (by decide))
              (fun hc => by
                have h2 : (2 : Nat) = 0 := hc.2.1
                exact absurd h2 (by decide))
            have hskip := processExpiredT_skip
              { st.tl with linked := true, infoW := 2, infoIdx := E / 2 ^ 28 % 2 ^ 10 }
              (st.rQhead % 8) (fun hc => by
                have h2 : (2 : Nat) = wheelExp := hc.2
                exact absurd h2 (by decide))
            have htl : (stepTick st).tl =
                { st.tl with linked := true, infoW := 2, infoIdx := E / 2 ^ 28 % 2 ^ 10 } := by
              rw [stepTick_rfl st hn1, hcas, hskip]
            have hnow := stepTick_nowTicks st hn1
            have hres := fireAt_w2 k (stepTick st) E (by rw [hnow]; omega)
              (by omega) (by omega) h63 (by rw [hnow]; omega) (by rw [htl])
              (by rw [htl]) (by rw [htl]) (by rw [htl]; exact hexp)
            rw [htl] at hres
            exact hres

/-- A linked timer whose slot matches `getWheelPos` for an expire `k` ticks
ahead fires exactly once within the next `k + 1` ticks. -/
theorem fireBy (k : Nat) (st : WSt) (E : Nat)
    (hsum : st.nowTicks + k = E) (hk : k < 2 ^ 47) (hE : E < 2 ^ 63)
    (hl : st.tl.linked = true) (hexp : st.tl.expire = ⟨E % 2 ^ 48⟩)
    (hpos : (st.tl.infoW, st.tl.infoIdx) =
      (if k = 0 then ((wheelExp : Nat), (wheelNoIdx : Nat))
      else if k < 2 ^ 14 then (0, E % 2 ^ 14)
      else if k < 2 ^ 28 then (1, E / 2 ^ 14 % 2 ^ 14)
      else if k < 2 ^ 38 then (2, E / 2 ^ 28 % 2 ^ 10)
      else (3, E / 2 ^ 38 % 2 ^ 10))) :
    (runTicks st (k + 1)).nowTicks = E + 1 ∧
    (runTicks st (k + 1)).tl.fired = st.tl.fired + 1 ∧
    (runTicks st (k + 1)).tl.linked = false ∧
    (runTicks st (k + 1)).tl.infoW = wheelNone ∧
    (runTicks st (k + 1)).tl.infoIdx = wheelNoIdx := by
  have hn1 : st.nowTicks + 1 < 2 ^ 64 := by omega
  rcases Nat.eq_zero_or_pos k with hk0 | hkpos
  · subst hk0
    rw [if_pos rfl] at hpos
    have hw : st.tl.infoW = wheelExp := congrArg Prod.fst hpos
    have hstay := redistTimersT_exp_stay st.tl (st.nowTicks + 1) hw
    have hf := processExpiredT_fire st.tl (st.rQhead % 8) hl hw
    simp only [runTicks]
    rw [stepTick_rfl st hn1, hstay]
    exact ⟨by rw [stepTick_nowTicks st hn1]; omega, hf.1, hf.2.1, hf.2.2.1,
      hf.2.2.2⟩
  · rw [if_neg (by omega)] at hpos
    rw [runTicks_add st k 1]
    by_cases h14 : k < 2 ^ 14
    · rw [if_pos h14] at hpos
      have hres := fireAt_w0 k st E hsum hkpos h14 hE hl
        (congrArg Prod.fst hpos) (congrArg Prod.snd hpos) hexp
      have hdone := runTicks_done (runTicks st k) 1 (by rw [hres.1]; omega)
        hres.2.2.1
      exact ⟨by rw [hdone.2, hres.1], by rw [hdone.1]; exact hres.2.1,
        by rw [hdone.1]; exact hres.2.2.1, by rw [hdone.1]; exact hres.2.2.2.1,
        by rw [hdone.1]; exact hres.2.2.2.2⟩
    · by_cases h28 : k < 2 ^ 28
      · rw [if_neg h14, if_pos h28] at hpos
        have hT1 : st.nowTicks < E / 2 ^ 14 * 2 ^ 14 := by omega
        have hres := fireAt_w1 k st E hsum hkpos h28 hE hT1 hl
          (congrArg Prod.fst hpos) (congrArg Prod.snd hpos) hexp
        have hdone := runTicks_done (runTicks st k) 1 (by rw [hres.1]; omega)
          hres.2.2.1
        exact ⟨by rw [hdone.2, hres.1], by rw [hdone.1]; exact hres.2.1,
          by rw [hdone.1]; exact hres.2.2.1, by rw [hdone.1]; exact hres.2.2.2.1,
          by rw [hdone.1]; exact hres.2.2.2.2⟩
      · by_cases h38 : k < 2 ^ 38
        · rw [if_neg h14, if_neg h28, if_pos h38] at hpos
          have hT2 : st.nowTicks < E / 2 ^ 28 * 2 ^ 28 := by omega
          have hres := fireAt_w2 k st E hsum hkpos h38 hE hT2 hl
            (congrArg Prod.fst hpos) (congrArg Prod.snd hpos) hexp
          have hdone := runTicks_done (runTicks st k) 1 (by rw [hres.1]; omega)
            hres.2.2.1
          exact ⟨by rw [hdone.2, hres.1], by rw [hdone.1]; exact hres.2.1,
            by rw [hdone.1]; exact hres.2.2.1, by rw [hdone.1]; exact hres.2.2.2.1,
            by rw [hdone.1]; exact hres.2.2.2.2⟩
        · rw [if_neg h14, if_neg h28, if_neg h38] at hpos
          have hT3 : st.nowTicks < E / 2 ^ 38 * 2 ^ 38 := by omega
          have hres := fireAt_w3 k st E hsum hkpos hk hE hT3 hl
            (congrArg Prod.fst hpos) (congrArg Prod.snd hpos) hexp
          have hdone := runTicks_done (runTicks st k) 1 (by rw [hres.1]; omega)
            hres.2.2.1
          exact ⟨by rw [hdone.2, hres.1], by rw [hdone.1]; exact hres.2.1,
            by rw [hdone.1]; exact hres.2.2.1, by rw [hdone.1]; exact hres.2.2.2.1,
            by rw [hdone.1]; exact hres.2.2.2.2⟩

/-- `advanceTimeTo(expire + 1)` from a counter at `n` iterates the tick loop
exactly `(E - n) + 1` times. -/
theorem advance_dist (st : WSt) (E n : Nat) (hn : st.nowTicks = n)
    (hv : n ≤ E) (hlt : E + 1 - n < 2 ^ 48) :
    advanceTimeTo st (Ticks.AddUint64 ⟨E % 2 ^ 48⟩ 1) =
      runTicks st ((E - n) + 1) := by
  unfold advanceTimeTo wtNowW
  rw [hn]
  congr 1
  have h1 : Ticks.AddUint64 ⟨E % 2 ^ 48⟩ 1 = ⟨(E + 1) % 2 ^ 48⟩ := by
    show (⟨(E % 2 ^ 48 + 1) % 2 ^ 48⟩ : Ticks) = ⟨(E + 1) % 2 ^ 48⟩
    simp only [Ticks.mk.injEq]
    omega
  rw [h1, newTicks_eq, sub_virtual (E + 1) n (by omega) hlt]
  omega

/-- Combined: advancing to `expire + 1` fires a correctly placed timer. -/
theorem advance_fireBy (st1 : WSt) (E n : Nat)
    (hn : st1.nowTicks = n) (hv : n ≤ E) (hk : E - n < 2 ^ 47) (hE : E < 2 ^ 63)
    (hl : st1.tl.linked = true) (hexp : st1.tl.expire = ⟨E % 2 ^ 48⟩)
    (hpos : (st1.tl.infoW, st1.tl.infoIdx) =
      (if E - n = 0 then ((wheelExp : Nat), (wheelNoIdx : Nat))
      else if E - n < 2 ^ 14 then (0, E % 2 ^ 14)
      else if E - n < 2 ^ 28 then (1, E / 2 ^ 14 % 2 ^ 14)
      else if E - n < 2 ^ 38 then (2, E / 2 ^ 28 % 2 ^ 10)
      else (3, E / 2 ^ 38 % 2 ^ 10))) :
    (advanceTimeTo st1 (Ticks.AddUint64 ⟨E % 2 ^ 48⟩ 1)).tl.fired
      = st1.tl.fired + 1 ∧
    (advanceTimeTo st1 (Ticks.AddUint64 ⟨E % 2 ^ 48⟩ 1)).tl.linked = false ∧
    (advanceTimeTo st1 (Ticks.AddUint64 ⟨E % 2 ^ 48⟩ 1)).tl.infoW = wheelNone ∧
    (advanceTimeTo st1 (Ticks.AddUint64 ⟨E % 2 ^ 48⟩ 1)).tl.infoIdx
      = wheelNoIdx := by
  rw [advance_dist st1 E n hn hv (by omega)]
  have hres := fireBy (E - n) st1 E (by omega) hk hE hl hexp hpos
  exact ⟨hres.2.1, hres.2.2.1, hres.2.2.2.1, hres.2.2.2.2⟩

/-- `AddExpire` on a fresh timer with an expire `E - now < 2^47` ticks ahead
succeeds, and advancing to `E + 1` fires it exactly once. -/
theorem addExpire_advance_virtual (st : WSt) (E : Nat)
    (hv : st.nowTicks ≤ E) (hdlt : E - st.nowTicks < 2 ^ 47) (hE : E < 2 ^ 63)
    (hfa : st.tl.flags &&& fActive = 0)
    (hfr : st.tl.flags &&& fRunning = 0)
    (hfd : st.tl.flags &&& fRemoved = 0)
    (hl : st.tl.linked = false)
    (hw : st.tl.infoW = wheelNone)
    (hi : st.tl.infoIdx = wheelNoIdx) :
    (AddExpire st ⟨E % 2 ^ 48⟩).2 = none ∧
    (advanceTimeTo (AddExpire st ⟨E % 2 ^ 48⟩).1
      (Ticks.AddUint64 ⟨E % 2 ^ 48⟩ 1)).tl.fired = st.tl.fired + 1 ∧
    (advanceTimeTo (AddExpire st ⟨E % 2 ^ 48⟩).1
      (Ticks.AddUint64 ⟨E % 2 ^ 48⟩ 1)).tl.Detached = true ∧
    (advanceTimeTo (AddExpire st ⟨E % 2 ^ 48⟩).1
      (Ticks.AddUint64 ⟨E % 2 ^ 48⟩ 1)).tl.infoW = wheelNone ∧
    (advanceTimeTo (AddExpire st ⟨E % 2 ^ 48⟩).1
      (Ticks.AddUint64 ⟨E % 2 ^ 48⟩ 1)).tl.infoIdx = wheelNoIdx := by
  have hnegA : ¬(st.tl.flags &&& fActive ≠ 0) := fun hc => hc hfa
  have hnegR : ¬(st.tl.flags &&& fRunning ≠ 0) := fun hc => hc hfr
  have hnegD : ¬(st.tl.flags &&& fRemoved ≠ 0) := fun hc => hc hfd
  have hnegL : ¬(st.tl.linked = true) := by simp [hl]
  have hnegW : ¬(st.tl.infoW ≠ wheelNone ∨ st.tl.infoIdx ≠ wheelNoIdx) := by
    simp [hw, hi]
  have hpn : getWheelPos ⟨E % 2 ^ 48⟩ (wtNowW st) =
      (if E - st.nowTicks = 0 then (wheelExp, wheelNoIdx)
      else if E - st.nowTicks < 2 ^ 14 then (0, E % 2 ^ 14)
      else if E - st.nowTicks < 2 ^ 28 then (1, E / 2 ^ 14 % 2 ^ 14)
      else if E - st.nowTicks < 2 ^ 38 then (2, E / 2 ^ 28 % 2 ^ 10)
      else (3, E / 2 ^ 38 % 2 ^ 10)) := by
    unfold wtNowW
    rw [newTicks_eq]
    exact getWheelPos_virtual E st.nowTicks hv (by omega)
  by_cases h0 : E - st.nowTicks = 0
  · -- placed directly on the expired list
    have hpc : getWheelPos ⟨E % 2 ^ 48⟩ (wtNowW st) = (wheelExp, wheelNoIdx) := by
      rw [hpn, if_pos h0]
    have hadd : AddExpire st ⟨E % 2 ^ 48⟩ =
        ({ st with tl := { st.tl with
            expire := ⟨E % 2 ^ 48⟩
            flags := chgFlags st.tl.flags fActive fInternalMask
            linked := true
            infoW := wheelExp
            infoIdx := wheelNoIdx } }, none) := by
      simp only [AddExpire, hpc]
      rw [if_neg hnegA, if_neg hnegR, if_neg hnegD, if_neg hnegL, if_neg hnegW,
        if_neg (show ¬(wheelExp < WheelsNo) from by decide), if_pos trivial]
    have hadd1 : (AddExpire st ⟨E % 2 ^ 48⟩).1 =
        { st with tl := { st.tl with
            expire := ⟨E % 2 ^ 48⟩
            flags := chgFlags st.tl.flags fActive fInternalMask
            linked := true
            infoW := wheelExp
            infoIdx := wheelNoIdx } } := by rw [hadd]
    have hadd2 : (AddExpire st ⟨E % 2 ^ 48⟩).2 = none := by rw [hadd]
    have hres := advance_fireBy (AddExpire st ⟨E % 2 ^ 48⟩).1 E st.nowTicks
      (by rw [hadd1]) hv hdlt hE (by rw [hadd1]) (by rw [hadd1])
      (by rw [hadd1, if_pos h0])
    refine ⟨hadd2, ?_, ?_, hres.2.2.1, hres.2.2.2⟩
    · rw [hres.1, hadd1]
    · simp only [TimerLnk.Detached]
      rw [hres.2.1, show (!false) = true from rfl]
  · by_cases h14 : E - st.nowTicks < 2 ^ 14
    · -- placed on wheel 0
      have hpc : getWheelPos ⟨E % 2 ^ 48⟩ (wtNowW st) = (0, E % 2 ^ 14) := by
        rw [hpn, if_neg h0, if_pos h14]
      have hadd : AddExpire st ⟨E % 2 ^ 48⟩ =
          ({ st with tl := { st.tl with
              expire := ⟨E % 2 ^ 48⟩
              flags := chgFlags st.tl.flags fActive fInternalMask
              linked := true
              infoW := 0
              infoIdx := E % 2 ^ 14 } }, none) := by
        simp only [AddExpire, hpc]
        rw [if_neg hnegA, if_neg hnegR, if_neg hnegD, if_neg hnegL, if_neg hnegW,
          if_pos (show (0 : Nat) < WheelsNo from by decide)]
      have hadd1 : (AddExpire st ⟨E % 2 ^ 48⟩).1 =
          { st with tl := { st.tl with
              expire := ⟨E % 2 ^ 48⟩
              flags := chgFlags st.tl.flags fActive fInternalMask
              linked := true
              infoW := 0
              infoIdx := E % 2 ^ 14 } } := by rw [hadd]
      have hadd2 : (AddExpire st ⟨E % 2 ^ 48⟩).2 = none := by rw [hadd]
      have hres := advance_fireBy (AddExpire st ⟨E % 2 ^ 48⟩).1 E st.nowTicks
        (by rw [hadd1]) hv hdlt hE (by rw [hadd1]) (by rw [hadd1])
        (by rw [hadd1, if_neg h0, if_pos h14])
      refine ⟨hadd2, ?_, ?_, hres.2.2.1, hres.2.2.2⟩
      · rw [hres.1, hadd1]
      · simp only [TimerLnk.Detached]
        rw [hres.2.1, show (!false) = true from rfl]
    · by_cases h28 : E - st.nowTicks < 2 ^ 28
      · -- placed on wheel 1
        have hpc : getWheelPos ⟨E % 2 ^ 48⟩ (wtNowW st) =
            (1, E / 2 ^ 14 % 2 ^ 14) := by
          rw [hpn, if_neg h0, if_neg h14, if_pos h28]
        have hadd : AddExpire st ⟨E % 2 ^ 48⟩ =
            ({ st with tl := { st.tl with
                expire := ⟨E % 2 ^ 48⟩
                flags := chgFlags st.tl.flags fActive fInternalMask
                linked := true
                infoW := 1
                infoIdx := E / 2 ^ 14 % 2 ^ 14 } }, none) := by
          simp only [AddExpire, hpc]
          rw [if_neg hnegA, if_neg hnegR, if_neg hnegD, if_neg hnegL, if_neg hnegW,
            if_pos (show (1 : Nat) < WheelsNo from by decide)]
        have hadd1 : (AddExpire st ⟨E % 2 ^ 48⟩).1 =
            { st with tl := { st.tl with
                expire := ⟨E % 2 ^ 48⟩
                flags := chgFlags st.tl.flags fActive fInternalMask
                linked := true
                infoW := 1
                infoIdx := E / 2 ^ 14 % 2 ^ 14 } } := by rw [hadd]
        have hadd2 : (AddExpire st ⟨E % 2 ^ 48⟩).2 = none := by rw [hadd]
        have hres := advance_fireBy (AddExpire st ⟨E % 2 ^ 48⟩).1 E st.nowTicks
          (by rw [hadd1]) hv hdlt hE (by rw [hadd1]) (by rw [hadd1])
          (by rw [hadd1, if_neg h0, if_neg h14, if_pos h28])
        refine ⟨hadd2, ?_, ?_, hres.2.2.1, hres.2.2.2⟩
        · rw [hres.1, hadd1]
        · simp only [TimerLnk.Detached]
          rw [hres.2.1, show (!false) = true from rfl]
      · by_cases h38 : E - st.nowTicks < 2 ^ 38
        · -- placed on wheel 2
          have hpc : getWheelPos ⟨E % 2 ^ 48⟩ (wtNowW st) =
              (2, E / 2 ^ 28 % 2 ^ 10) := by
            rw [hpn, if_neg h0, if_neg h14, if_neg h28, if_pos h38]
          have hadd : AddExpire st ⟨E % 2 ^ 48⟩ =
              ({ st with tl := { st.tl with
                  expire := ⟨E % 2 ^ 48⟩
                  flags := chgFlags st.tl.flags fActive fInternalMask
                  linked := true
                  infoW := 2
                  infoIdx := E / 2 ^ 28 % 2 ^ 10 } }, none) := by
            simp only [AddExpire, hpc]
            rw [if_neg hnegA, if_neg hnegR, if_neg hnegD, if_neg hnegL,
              if_neg hnegW, if_pos (show (2 : Nat) < WheelsNo from by decide)]
          have hadd1 : (AddExpire st ⟨E % 2 ^ 48⟩).1 =
              { st with tl := { st.tl with
                  expire := ⟨E % 2 ^ 48⟩
                  flags := chgFlags st.tl.flags fActive fInternalMask
                  linked := true
                  infoW := 2
                  infoIdx := E / 2 ^ 28 % 2 ^ 10 } } := by rw [hadd]
          have hadd2 : (AddExpire st ⟨E % 2 ^ 48⟩).2 = none := by rw [hadd]
          have hres := advance_fireBy (AddExpire st ⟨E % 2 ^ 48⟩).1 E st.nowTicks
            (by rw [hadd1]) hv hdlt hE (by rw [hadd1]) (by rw [hadd1])
            (by rw [hadd1, if_neg h0, if_neg h14, if_neg h28, if_pos h38])
          refine ⟨hadd2, ?_, ?_, hres.2.2.1, hres.2.2.2⟩
          · rw [hres.1, hadd1]
          · simp only [TimerLnk.Detached]
            rw [hres.2.1, show (!false) = true from rfl]
        · -- placed on wheel 3
          have hpc : getWheelPos ⟨E % 2 ^ 48⟩ (wtNowW st) =
              (3, E / 2 ^ 38 % 2 ^ 10) := by
            rw [hpn, if_neg h0, if_neg h14, if_neg h28, if_neg h38]
          have hadd : AddExpire st ⟨E % 2 ^ 48⟩ =
              ({ st with tl := { st.tl with
                  expire := ⟨E % 2 ^ 48⟩
                  flags := chgFlags st.tl.flags fActive fInternalMask
                  linked := true
                  infoW := 3
                  infoIdx := E / 2 ^ 38 % 2 ^ 10 } }, none) := by
            simp only [AddExpire, hpc]
            rw [if_neg hnegA, if_neg hnegR, if_neg hnegD, if_neg hnegL,
              if_neg hnegW, if_pos (show (3 : Nat) < WheelsNo from by decide)]
          have hadd1 : (AddExpire st ⟨E % 2 ^ 48⟩).1 =
              { st with tl := { st.tl with
                  expire := ⟨E % 2 ^ 48⟩
                  flags := chgFlags st.tl.flags fActive fInternalMask
                  linked := true
                  infoW := 3
                  infoIdx := E / 2 ^ 38 % 2 ^ 10 } } := by rw [hadd]
          have hadd2 : (AddExpire st ⟨E % 2 ^ 48⟩).2 = none := by rw [hadd]
          have hres := advance_fireBy (AddExpire st ⟨E % 2 ^ 48⟩).1 E st.nowTicks
            (by rw [hadd1]) hv hdlt hE (by rw [hadd1]) (by rw [hadd1])
            (by rw [hadd1, if_neg h0, if_neg h14, if_neg h28, if_neg h38])
          refine ⟨hadd2, ?_, ?_, hres.2.2.1, hres.2.2.2⟩
          · rw [hres.1, hadd1]
          · simp only [TimerLnk.Detached]
            rw [hres.2.1, show (!false) = true from rfl]

/-- C1: a fresh timer armed with `AddExpire(t, exp)` for an `exp` at most
`MaxTicksDiff - 1` ticks past the current tick, followed by
`advanceTimeTo(exp + 1)`, has its one-shot callback run exactly once
(`fired` increases by exactly one), after which `t.Detached()` is true and
the timer's wheel position is `(wheelNone, wheelNoIdx)`. -/
theorem C1_addExpire_fires_once (st : WSt) (expire : Ticks)
    (hnow : st.nowTicks < 2 ^ 62) (hev : expire.v < 2 ^ 48)
    (hfa : st.tl.flags &&& fActive = 0)
    (hfr : st.tl.flags &&& fRunning = 0)
    (hfd : st.tl.flags &&& fRemoved = 0)
    (hl : st.tl.linked = false)
    (hw : st.tl.infoW = wheelNone)
    (hi : st.tl.infoIdx = wheelNoIdx)
    (hd : (expire.Sub (wtNowW st)).Val ≤ MaxTicksDiff - 1) :
    (AddExpire st expire).2 = none ∧
    (advanceTimeTo (AddExpire st expire).1 (expire.AddUint64 1)).tl.fired
      = st.tl.fired + 1 ∧
    (advanceTimeTo (AddExpire st expire).1 (expire.AddUint64 1)).tl.Detached
      = true ∧
    (advanceTimeTo (AddExpire st expire).1 (expire.AddUint64 1)).tl.infoW
      = wheelNone ∧
    (advanceTimeTo (AddExpire st expire).1 (expire.AddUint64 1)).tl.infoIdx
      = wheelNoIdx := by
  obtain ⟨ev⟩ := expire
  have hev2 : ev < 2 ^ 48 := hev
  have hdv : (Ticks.Sub ⟨ev⟩ (wtNowW st)).Val
      = (ev + (2 ^ 48 - st.nowTicks % 2 ^ 48)) % 2 ^ 48 := by
    unfold wtNowW
    rw [newTicks_eq, val_eq, sub_mk]
    omega
  rw [hdv, maxTicksDiff_eq] at hd
  have he : (⟨ev⟩ : Ticks) =
      ⟨(st.nowTicks + (ev + (2 ^ 48 - st.nowTicks % 2 ^ 48)) % 2 ^ 48) % 2 ^ 48⟩ := by
    simp only [Ticks.mk.injEq]
    omega
  rw [he]
  exact addExpire_advance_virtual st
    (st.nowTicks + (ev + (2 ^ 48 - st.nowTicks % 2 ^ 48)) % 2 ^ 48)
    (by omega) (by omega) (by omega) hfa hfr hfd hl hw hi

/-- Witness for C1 at a concrete state: counter at 5, a fresh timer, and an
expire tick of 7 (two ticks ahead). -/
theorem C1_witness :
    (AddExpire ⟨5, 0, ⟨false, wheelNone, wheelNoIdx, 0, 0, 0, ⟨0⟩, 0⟩⟩ ⟨7⟩).2
      = none ∧
    (advanceTimeTo (AddExpire ⟨5, 0, ⟨false, wheelNone, wheelNoIdx, 0, 0, 0, ⟨0⟩, 0⟩⟩ ⟨7⟩).1
      (Ticks.AddUint64 ⟨7⟩ 1)).tl.fired = 0 + 1 ∧
    (advanceTimeTo (AddExpire ⟨5, 0, ⟨false, wheelNone, wheelNoIdx, 0, 0, 0, ⟨0⟩, 0⟩⟩ ⟨7⟩).1
      (Ticks.AddUint64 ⟨7⟩ 1)).tl.Detached = true ∧
    (advanceTimeTo (AddExpire ⟨5, 0, ⟨false, wheelNone, wheelNoIdx, 0, 0, 0, ⟨0⟩, 0⟩⟩ ⟨7⟩).1
      (Ticks.AddUint64 ⟨7⟩ 1)).tl.infoW = wheelNone ∧
    (advanceTimeTo (AddExpire ⟨5, 0, ⟨false, wheelNone, wheelNoIdx, 0, 0, 0, ⟨0⟩, 0⟩⟩ ⟨7⟩).1
      (Ticks.AddUint64 ⟨7⟩ 1)).tl.infoIdx = wheelNoIdx :=
  C1_addExpire_fires_once ⟨5, 0, ⟨false, wheelNone, wheelNoIdx, 0, 0, 0, ⟨0⟩, 0⟩⟩
    ⟨7⟩ (by decide) (by decide) (by decide) (by decide) (by decide) rfl rfl rfl
    (by decide)

end Wtimer
